import Mathlib

/-!
# Verification of the python-gdsii record codec and grammar layer

This file is a shallow embedding, in Lean 4, of the GDSII stream codec from
the `python-gdsii` library.  The repository contains two package variants:

* `gdsii/` — record-descriptor based (`gdsii/_records.py`, `gdsii/elements.py`,
  `gdsii/structure.py`, `gdsii/library.py`).  Its `gdsii/__init__.py`
  (tag constants, `RecordData`, primitive codecs) is not part of the sources
  we were given; the primitive layer is shared verbatim with `pygdsii/__init__.py`,
  which is present, so the primitive codec below is translated from
  `pygdsii/__init__.py`.  The few members that exist only in the missing
  `gdsii/__init__.py` (`RecordData` keyword constructors `points=`, `times=`,
  `acls=`, the `acls` accessor, and `OptionalFlagsRecord`) are modelled from
  the specification and marked as such in their doc comments.
* `pygdsii/` — the older hand-written element readers (`pygdsii/elements.py`).

Machine integers are embedded as `Nat`/`Int` with explicit bounds where the
Python code manipulates fixed-width values; bytes are `Nat` (values < 256);
Python `float` (IEEE-754 binary64) values are embedded as their 64-bit
pattern (a `Nat` < 2^64), with `ldexp`-rounding made explicit.  Fallible
Python code (raised exceptions) is embedded with `Except Err`.
-/

namespace Gdsii

/-- Error taxonomy.  Constructors mirror the exception classes of
`pygdsii/__init__.py` (`EndOfFileError`, `IncorrectDataSize`,
`UnsupportedTagType`, `MissingRecord`, `DataSizeError`, `FormatError`)
plus the Python builtin exceptions that the code can actually raise:
`KeyError` (dict lookup misses), `ValueError` (negative shift count /
invalid `datetime` fields), `TypeError` (`len()` of a non-sequence,
`next()` of a non-iterator), `AttributeError` (access to a missing
attribute such as the `gen.curent` typo), `StopIteration` (an exhausted
generator) and `struct.error` (out-of-range packing).
`fuelError` is an artefact of the embedding: loops are given fuel that
provably exceeds the number of records/bytes still available, so the
constructor is unreachable from the top-level entry points. -/
inductive Err : Type where
  | endOfFileError : Err
  | incorrectDataSize : Err
  | unsupportedTagType : Nat → Err
  | missingRecord : Nat → Err
  | dataSizeError : Nat → Err
  | formatError : String → Err
  | keyError : Nat → Err
  | valueError : Err
  | typeError : Err
  | attributeError : Err
  | stopIteration : Err
  | structError : Err
  | indexError : Err
  | fuelError : Err
deriving DecidableEq, Repr

/-- Parsed record payloads.  A Python `RecordData._data` value is one of:
`None` (NODATA), an `int` (BITARRAY), a tuple of `int` (INT2/INT4),
a tuple of `float` (REAL8, embedded as IEEE-754 bit patterns) or a
byte string (ASCII). -/
inductive PyVal : Type where
  | none : PyVal
  | int (v : Nat) : PyVal
  | ints (vs : List Int) : PyVal
  | reals (vs : List Nat) : PyVal
  | bytes (bs : List Nat) : PyVal
deriving DecidableEq, Repr

namespace tags

/-- Record tags, from class `GDSII` in `pygdsii/__init__.py`. -/
def HEADER : Nat := 0x0002

def BGNLIB : Nat := 0x0102

def LIBNAME : Nat := 0x0206

def UNITS : Nat := 0x0305

def ENDLIB : Nat := 0x0400

def BGNSTR : Nat := 0x0502

def STRNAME : Nat := 0x0606

def ENDSTR : Nat := 0x0700

def BOUNDARY : Nat := 0x0800

def PATH : Nat := 0x0900

def SREF : Nat := 0x0A00

def AREF : Nat := 0x0B00

def TEXT : Nat := 0x0C00

def LAYER : Nat := 0x0D02

def DATATYPE : Nat := 0x0E02

def WIDTH : Nat := 0x0F03

def XY : Nat := 0x1003

def ENDEL : Nat := 0x1100

def SNAME : Nat := 0x1206

def COLROW : Nat := 0x1302

def TEXTNODE : Nat := 0x1400

def NODE : Nat := 0x1500

def TEXTTYPE : Nat := 0x1602

def PRESENTATION : Nat := 0x1701

def STRING : Nat := 0x1906

def STRANS : Nat := 0x1A01

def MAG : Nat := 0x1B05

def ANGLE : Nat := 0x1C05

def REFLIBS : Nat := 0x1F06

def FONTS : Nat := 0x2006

def PATHTYPE : Nat := 0x2102

def GENERATIONS : Nat := 0x2202

def ATTRTABLE : Nat := 0x2306

def ELFLAGS : Nat := 0x2601

def NODETYPE : Nat := 0x2A02

def PROPATTR : Nat := 0x2B02

def PROPVALUE : Nat := 0x2C06

def BOX : Nat := 0x2D00

def BOXTYPE : Nat := 0x2E02

def PLEX : Nat := 0x2F03

def BGNEXTN : Nat := 0x3003

def ENDEXTN : Nat := 0x3103

def STRCLASS : Nat := 0x3401

def FORMAT : Nat := 0x3602

def MASK : Nat := 0x3706

def ENDMASKS : Nat := 0x3800

def LIBDIRSIZE : Nat := 0x3902

def SRFNAME : Nat := 0x3A06

def LIBSECUR : Nat := 0x3B02

end tags

/-- `type_of_tag(tag)` from `pygdsii/__init__.py`: `tag & 0xff`. -/
def typeOfTag (tag : Nat) : Nat := tag % 256

/-- Interpretation of a `w`-bit big-endian two's-complement value
(the semantics of `struct.unpack` format characters `h` and `l`). -/
def toSigned (w : Nat) (n : Nat) : Int :=
  if n < 2 ^ (w - 1) then (n : Int) else (n : Int) - 2 ^ w

/-- Big-endian byte pair to unsigned 16-bit value (`struct.unpack` `>H`). -/
def beU16 (b0 b1 : Nat) : Nat := 256 * b0 + b1

/-- Structural worker for `beGroup`; the fuel bounds the number of groups
and is instantiated with the list length, which always suffices for the
nonzero chunk sizes in use (2, 4 and 8). -/
def beGroupFuel (k : Nat) : Nat → List Nat → List Nat
  | 0, _ => []
  | _, [] => []
  | fuel + 1, b :: bs =>
    ((b :: bs).take k).foldl (fun acc c => 256 * acc + c) 0 ::
      beGroupFuel k fuel ((b :: bs).drop k)

/-- Group a byte list into big-endian `k`-byte unsigned values.
Assumes `bs.length` is a multiple of `k` (callers check this first). -/
def beGroup (k : Nat) (bs : List Nat) : List Nat :=
  beGroupFuel k bs.length bs

/-- `struct.pack` of one unsigned value into `k` big-endian bytes. -/
def beBytes (k : Nat) (v : Nat) : List Nat :=
  (List.range k).reverse.map fun i => v / 256 ^ i % 256

/-- `_parse_nodata` from `pygdsii/__init__.py`. -/
def parseNodata (data : List Nat) : Except Err PyVal :=
  if data.length ≠ 0 then .error .incorrectDataSize else .ok .none

/-- `_parse_bitarray` from `pygdsii/__init__.py`. -/
def parseBitarray (data : List Nat) : Except Err PyVal :=
  if data.length ≠ 2 then .error .incorrectDataSize
  else .ok (.int (beU16 (data.getD 0 0) (data.getD 1 0)))

/-- `_parse_int2` from `pygdsii/__init__.py`. -/
def parseInt2 (data : List Nat) : Except Err PyVal :=
  if data.length = 0 ∨ data.length % 2 ≠ 0 then .error .incorrectDataSize
  else .ok (.ints ((beGroup 2 data).map (toSigned 16)))

/-- `_parse_int4` from `pygdsii/__init__.py`. -/
def parseInt4 (data : List Nat) : Except Err PyVal :=
  if data.length = 0 ∨ data.length % 4 ≠ 0 then .error .incorrectDataSize
  else .ok (.ints ((beGroup 4 data).map (toSigned 32)))

/-- Bit pattern (sign, 53-bit mantissa `2^52 ≤ m < 2^53`, exponent `e` with
value `m * 2^e`) of a normal IEEE-754 binary64 number.  Used to express the
result of Python `math.ldexp`. -/
def ieeeBits (sgn : Bool) (m : Nat) (e : Int) : Nat :=
  (if sgn then 2 ^ 63 else 0) + ((e + 52 + 1023).toNat * 2 ^ 52) + (m - 2 ^ 52)

/-- Bit length of a natural number below `2^fuel` (structural recursion so
that kernel reduction works; the fuel 64 used below covers every mantissa
reachable from a 64-bit word). -/
def bitLenFuel : Nat → Nat → Nat
  | 0, _ => 0
  | fuel + 1, n => if n = 0 then 0 else bitLenFuel fuel (n / 2) + 1

/-- Round-to-nearest, ties-to-even, of the real number `± m * 2^e` to an
IEEE-754 binary64 bit pattern; this is the value computed by Python
`math.ldexp(sgn_m, e)` for the magnitudes reachable from a GDSII real
(always within the normal range, so no underflow/overflow handling). -/
def ldexpBits (sgn : Bool) (m : Nat) (e : Int) : Nat :=
  if m = 0 then 0
  else
    let b := bitLenFuel 64 m
    if b ≤ 53 then ieeeBits sgn (m * 2 ^ (53 - b)) (e - (53 - b))
    else
      let s := b - 53
      let q := m / 2 ^ s
      let r := m % 2 ^ s
      let half := 2 ^ (s - 1)
      let q2 := if half < r ∨ (r = half ∧ q % 2 = 1) then q + 1 else q
      if q2 = 2 ^ 53 then ieeeBits sgn (2 ^ 52) (e + s + 1) else ieeeBits sgn q2 (e + s)

/-- `_int_to_real` from `pygdsii/__init__.py`: convert a REAL8 64-bit word
to a Python float (embedded as its IEEE-754 bit pattern).
`sgn = -1 if msb else 1; mant = num & 2^56-1; exp = (num >> 56) & 0x7f;
return ldexp(sgn * mant, 4 * (exp - 64) - 56)`. -/
def intToReal (num : Nat) : Nat :=
  let sgn := 2 ^ 63 ≤ num % 2 ^ 64
  let mant := num % 2 ^ 56
  let exp : Int := ((num / 2 ^ 56 % 2 ^ 7 : Nat) : Int)
  ldexpBits sgn mant (4 * (exp - 64) - 56)

/-- `_parse_real8` from `pygdsii/__init__.py`. -/
def parseReal8 (data : List Nat) : Except Err PyVal :=
  if data.length = 0 ∨ data.length % 8 ≠ 0 then .error .incorrectDataSize
  else .ok (.reals ((beGroup 8 data).map intToReal))

/-- `_parse_ascii` from `pygdsii/__init__.py`: reject empty payloads, strip a
single trailing NUL byte. -/
def parseAscii (data : List Nat) : Except Err PyVal :=
  if data.length = 0 then .error .incorrectDataSize
  else if data.getLast? = some 0 then .ok (.bytes data.dropLast)
  else .ok (.bytes data)

/-- `_pack_nodata` from `pygdsii/__init__.py`: always the empty string
(the argument is ignored by the Python code). -/
def packNodata (_data : PyVal) : Except Err (List Nat) := .ok []

/-- `_pack_bitarray` from `pygdsii/__init__.py` (`struct.pack('>H', data)`,
which raises `struct.error` when the value is out of the unsigned 16-bit
range, and `TypeError` on a non-integer argument). -/
def packBitarray (data : PyVal) : Except Err (List Nat) :=
  match data with
  | .int v => if v < 2 ^ 16 then .ok (beBytes 2 v) else .error .structError
  | _ => .error .typeError

/-- `struct.pack('>h', v)`: two's-complement big-endian 16-bit with a
range check. -/
def packSigned16 (v : Int) : Except Err (List Nat) :=
  if -(2 ^ 15) ≤ v ∧ v < 2 ^ 15 then .ok (beBytes 2 ((v % 2 ^ 16).toNat))
  else .error .structError

/-- `struct.pack('>l', v)`: two's-complement big-endian 32-bit with a
range check. -/
def packSigned32 (v : Int) : Except Err (List Nat) :=
  if -(2 ^ 31) ≤ v ∧ v < 2 ^ 31 then .ok (beBytes 4 ((v % 2 ^ 32).toNat))
  else .error .structError

/-- `_pack_int2` from `pygdsii/__init__.py`. -/
def packInt2 (data : PyVal) : Except Err (List Nat) :=
  match data with
  | .ints vs => (vs.mapM packSigned16).map List.flatten
  | _ => .error .typeError

/-- `_pack_int4` from `pygdsii/__init__.py`. -/
def packInt4 (data : PyVal) : Except Err (List Nat) :=
  match data with
  | .ints vs => (vs.mapM packSigned32).map List.flatten
  | _ => .error .typeError

/-- `_real_to_int` from `pygdsii/__init__.py`: convert a Python float
(given as its IEEE-754 binary64 bit pattern) to the REAL8 64-bit word.

The `exp16_biased < 0` branch of the source computes
`ieee_mant_comp >> (exp16_biased * 4)` with a *negative* shift count,
which in Python raises `ValueError: negative shift count`; the embedding
returns `Err.valueError` there. -/
def realToInt (ieee : Nat) : Except Err Nat :=
  let sign : Nat := ieee / 2 ^ 63 % 2 * 2 ^ 63
  let ieeeExp : Nat := ieee / 2 ^ 52 % 2 ^ 11
  let ieeeMant : Nat := ieee % 2 ^ 52
  if ieeeExp = 0 then .ok 0
  else
    let unbIeeeExp : Int := (ieeeExp : Int) - 1023
    let ieeeMantFull := (ieeeMant + 2 ^ 52) * 2 ^ 3
    let exp16 : Int := (unbIeeeExp + 1) / 4
    let rest : Int := (unbIeeeExp + 1) % 4
    let exp16' : Int := if rest ≠ 0 then exp16 + 1 else exp16
    let rest' : Nat := if rest ≠ 0 then (4 - rest).toNat else 0
    let ieeeMantComp := ieeeMantFull / 2 ^ rest'
    let exp16Biased : Int := exp16' + 64
    if exp16Biased < -14 then .ok 0
    else if exp16Biased < 0 then .error .valueError
    else if exp16Biased > 0x7f then .error (.formatError "number is to big for REAL8")
    else .ok (sign + exp16Biased.toNat * 2 ^ 56 + ieeeMantComp)

/-- `_pack_real8` from `pygdsii/__init__.py`. -/
def packReal8 (data : PyVal) : Except Err (List Nat) :=
  match data with
  | .reals vs => (vs.mapM (fun x => (realToInt x).map (beBytes 8))).map List.flatten
  | _ => .error .typeError

/-- `_pack_ascii` from `pygdsii/__init__.py`: append one NUL byte when the
length is odd. -/
def packAscii (data : PyVal) : Except Err (List Nat) :=
  match data with
  | .bytes bs => if bs.length % 2 = 1 then .ok (bs ++ [0]) else .ok bs
  | _ => .error .typeError

/-- A GDSII record with parsed data: class `RecordData` of
`pygdsii/__init__.py` (`__slots__ = ['_tag', '_data']`). -/
structure RecordData : Type where
  tag : Nat
  data : PyVal
deriving DecidableEq, Repr

/-- `_read_record` from `pygdsii/__init__.py`.  The stream is a byte list;
`stream.read(n)` returns up to `n` bytes.  Returns `((tag, data), rest)`
where `rest` is the unconsumed part of the stream. -/
def readRecord (stream : List Nat) : Except Err ((Nat × List Nat) × List Nat) :=
  let header := stream.take 4
  if header.length ≠ 4 then .error .endOfFileError
  else
    let dataSize := beU16 (header.getD 0 0) (header.getD 1 0)
    let tag := beU16 (header.getD 2 0) (header.getD 3 0)
    if dataSize < 4 then .error .incorrectDataSize
    else if dataSize % 2 ≠ 0 then .error .incorrectDataSize
    else
      let data := (stream.drop 4).take (dataSize - 4)
      if data.length ≠ dataSize - 4 then .error .endOfFileError
      else .ok ((tag, data), (stream.drop 4).drop (dataSize - 4))

/-- The `_PARSE_FUNCS` dispatch of `pygdsii/__init__.py`, merged with the
`KeyError → UnsupportedTagType` handling of `RecordData.read`. -/
def parseByType (typ : Nat) (data : List Nat) : Except Err PyVal :=
  if typ = 0 then parseNodata data
  else if typ = 1 then parseBitarray data
  else if typ = 2 then parseInt2 data
  else if typ = 3 then parseInt4 data
  else if typ = 5 then parseReal8 data
  else if typ = 6 then parseAscii data
  else .error (.unsupportedTagType typ)

/-- `RecordData.read` from `pygdsii/__init__.py`: frame one record and parse
its payload by the tag's low byte. -/
def recordDataRead (stream : List Nat) : Except Err (RecordData × List Nat) := do
  let ((tag, data), rest) ← readRecord stream
  let v ← parseByType (typeOfTag tag) data
  .ok (⟨tag, v⟩, rest)

/-- The `_PACK_FUNCS` dispatch of `pygdsii/__init__.py`, merged with the
`KeyError → UnsupportedTagType` handling of `RecordData.save`. -/
def packByType (typ : Nat) (data : PyVal) : Except Err (List Nat) :=
  if typ = 0 then packNodata data
  else if typ = 1 then packBitarray data
  else if typ = 2 then packInt2 data
  else if typ = 3 then packInt4 data
  else if typ = 5 then packReal8 data
  else if typ = 6 then packAscii data
  else .error (.unsupportedTagType typ)

/-- `RecordData.save` from `pygdsii/__init__.py`: pack the payload, check
the 16-bit total-size cap, emit the 4-byte header followed by the payload. -/
def recordSaveBytes (r : RecordData) : Except Err (List Nat) := do
  let packed ← packByType (typeOfTag r.tag) r.data
  let recordSize := packed.length + 4
  if recordSize > 0xFFFF then .error (.formatError "data size is too big")
  else .ok (beBytes 2 recordSize ++ beBytes 2 r.tag ++ packed)

/-- Saving a list of records to a stream, one after the other
(each `save` call appends its frame to the output stream). -/
def framesBytes (rs : List RecordData) : Except Err (List Nat) :=
  (rs.mapM recordSaveBytes).map List.flatten

/-- `RecordData.check_tag` from `pygdsii/__init__.py`. -/
def checkTag (r : RecordData) (tag : Nat) : Except Err Unit :=
  if r.tag ≠ tag then .error (.missingRecord r.tag) else .ok ()

/-- `len()` of a parsed payload: raises `TypeError` for `None` and `int`
data (NODATA / BITARRAY), the length otherwise. -/
def dataLen (v : PyVal) : Except Err Nat :=
  match v with
  | .none => .error .typeError
  | .int _ => .error .typeError
  | .ints vs => .ok vs.length
  | .reals vs => .ok vs.length
  | .bytes bs => .ok bs.length

/-- `RecordData.check_size` from `pygdsii/__init__.py`. -/
def checkSize (r : RecordData) (size : Nat) : Except Err Unit := do
  let l ← dataLen r.data
  if l ≠ size then .error (.dataSizeError r.tag) else .ok ()

/-- Turn a flat coordinate list into point pairs (the list comprehension in
`RecordData.points`); elements beyond an even prefix are dropped, but the
caller checks evenness first. -/
def pairPoints : List Int → List (Int × Int)
  | x :: y :: rest => (x, y) :: pairPoints rest
  | _ => []

/-- Flatten a point list back into a flat coordinate list (the layout that
`RecordData(tag, points=...)` packs as INT4). -/
def flattenPoints : List (Int × Int) → List Int
  | [] => []
  | (x, y) :: rest => x :: y :: flattenPoints rest

/-- `RecordData.points` from `pygdsii/__init__.py`: interpret the data as a
list of points; `DataSizeError` when empty or of odd length.  An XY record
always carries INT4 data, so the embedding requires `.ints`. -/
def recPoints (r : RecordData) : Except Err (List (Int × Int)) :=
  match r.data with
  | .ints vs =>
    if vs.length = 0 ∨ vs.length % 2 ≠ 0 then .error (.dataSizeError r.tag)
    else .ok (pairPoints vs)
  | _ => .error .typeError

/-- A `datetime.datetime` value restricted to the six fields the GDSII codec
uses (the library passes no time zone and no sub-second fields). -/
structure PyDatetime : Type where
  year : Int
  month : Int
  day : Int
  hour : Int
  minute : Int
  second : Int
deriving DecidableEq, Repr

/-- Gregorian leap-year rule used by `datetime`. -/
def isLeapYear (y : Int) : Bool :=
  y % 4 = 0 ∧ (y % 100 ≠ 0 ∨ y % 400 = 0)

/-- Days in a month per `datetime` validation. -/
def daysInMonth (y m : Int) : Int :=
  if m = 2 then (if isLeapYear y then 29 else 28)
  else if m = 4 ∨ m = 6 ∨ m = 9 ∨ m = 11 then 30
  else 31

/-- The `datetime.datetime(year, month, day, hour, minute, second)`
constructor: field validation raising `ValueError` out of range
(`MINYEAR = 1`, `MAXYEAR = 9999`). -/
def mkDatetime (y mo d h mi s : Int) : Except Err PyDatetime :=
  if 1 ≤ y ∧ y ≤ 9999 ∧ 1 ≤ mo ∧ mo ≤ 12 ∧ 1 ≤ d ∧ d ≤ daysInMonth y mo ∧
      0 ≤ h ∧ h ≤ 23 ∧ 0 ≤ mi ∧ mi ≤ 59 ∧ 0 ≤ s ∧ s ≤ 59 then
    .ok ⟨y, mo, d, h, mi, s⟩
  else .error .valueError

/-- `RecordData.times` from `pygdsii/__init__.py`: exactly 12 INT2 values,
years offset by 1900. -/
def recTimes (r : RecordData) : Except Err (PyDatetime × PyDatetime) :=
  match r.data with
  | .ints vs =>
    if vs.length ≠ 12 then .error (.dataSizeError r.tag)
    else do
      let modTime ← mkDatetime (vs.getD 0 0 + 1900) (vs.getD 1 0) (vs.getD 2 0)
        (vs.getD 3 0) (vs.getD 4 0) (vs.getD 5 0)
      let accTime ← mkDatetime (vs.getD 6 0 + 1900) (vs.getD 7 0) (vs.getD 8 0)
        (vs.getD 9 0) (vs.getD 10 0) (vs.getD 11 0)
      .ok (modTime, accTime)
  | _ => .error .typeError

/-- The 12-integer payload that `RecordData(tag, times=(mod, acc))` packs
as INT2.  Modelled from the spec: `as_times` stores
`year-1900, month, day, hour, minute, second` for the modification then the
access time (the keyword constructor of the missing `gdsii/__init__.py`
mirrors the accessor). -/
def timesList (modTime accTime : PyDatetime) : List Int :=
  [modTime.year - 1900, modTime.month, modTime.day,
   modTime.hour, modTime.minute, modTime.second,
   accTime.year - 1900, accTime.month, accTime.day,
   accTime.hour, accTime.minute, accTime.second]

/-- `all_records` from `pygdsii/__init__.py`: read records until (and
including) the ENDLIB record.  Returns the record list and the unread rest
of the stream.  The fuel always suffices because every record consumes at
least four bytes (see `allRecords`). -/
def allRecordsFuel : Nat → List Nat → Except Err (List RecordData × List Nat)
  | 0, _ => .error .fuelError
  | fuel + 1, stream => do
    let (rec, rest) ← recordDataRead stream
    if rec.tag = tags.ENDLIB then .ok ([rec], rest)
    else do
      let (recs, rem) ← allRecordsFuel fuel rest
      .ok (rec :: recs, rem)

/-- `all_records` with sufficient fuel for the given stream. -/
def allRecords (stream : List Nat) : Except Err (List RecordData × List Nat) :=
  allRecordsFuel (stream.length + 1) stream

/-! ## The `gdsii` grammar layer

`BufferedGenerator` (`gdsii/_utils.py`) exposes `current` (the most recently
fetched record) and `next()`.  In every code path of the grammar layer the
first operation on a fresh generator is `next()`, so the state is embedded
as the current record plus the list of not-yet-fetched records. -/

/-- Buffered-generator state: the current record and the records not yet
fetched. -/
structure GS : Type where
  cur : RecordData
  rest : List RecordData
deriving DecidableEq, Repr

/-- `next(recs)` on a `BufferedGenerator`: fetch the next record (it becomes
`current`); an exhausted generator raises `StopIteration`. -/
def gnext (g : GS) : Except Err GS :=
  match g.rest with
  | [] => .error .stopIteration
  | r :: rs => .ok ⟨r, rs⟩

/-- `_ignore_record(recs, lastrec, tag)` from `gdsii/__init__.py` /
`pygdsii/__init__.py` (the latter is in the sources): skip the current
record when it has the given tag. -/
def ignoreRecord (g : GS) (tag : Nat) : Except Err GS :=
  if g.cur.tag ≠ tag then .ok g else gnext g

/-- `data[0]` on an INT2/INT4 payload tuple. -/
def dataFirstInt (v : PyVal) : Except Err Int :=
  match v with
  | .ints (x :: _) => .ok x
  | .ints [] => .error .indexError
  | _ => .error .typeError

/-- `data[0]` on a REAL8 payload tuple (a float, as IEEE-754 bits). -/
def dataFirstReal (v : PyVal) : Except Err Nat :=
  match v with
  | .reals (x :: _) => .ok x
  | .reals [] => .error .indexError
  | _ => .error .typeError

/-- `a, b = rec.data` destructuring of a 2-element INT2 tuple. -/
def dataTwoInts (v : PyVal) : Except Err (Int × Int) :=
  match v with
  | .ints [a, b] => .ok (a, b)
  | _ => .error .valueError

/-- `a, b = rec.data` destructuring of a 2-element REAL8 tuple. -/
def dataTwoReals (v : PyVal) : Except Err (Nat × Nat) :=
  match v with
  | .reals [a, b] => .ok (a, b)
  | _ => .error .valueError

/-- `SimpleRecord.read` from `gdsii/_records.py`: check the tag, check size
1, store `data[0]`, advance. -/
def simpleRead {α : Type} (gdsRecord : Nat) (set : α → Int → α) (inst : α)
    (g : GS) : Except Err (α × GS) := do
  let _ ← checkTag g.cur gdsRecord
  let _ ← checkSize g.cur 1
  let v ← dataFirstInt g.cur.data
  let g2 ← gnext g
  .ok (set inst v, g2)

/-- `SimpleOptionalRecord.read` from `gdsii/_records.py`: when the current
record has the descriptor's tag, advance and run `optional_read` on the old
current record (check size 1, store `data[0]`); otherwise do nothing. -/
def simpleOptionalRead {α : Type} (gdsRecord : Nat) (set : α → Int → α)
    (inst : α) (g : GS) : Except Err (α × GS) :=
  if g.cur.tag = gdsRecord then do
    let g2 ← gnext g
    let _ ← checkSize g.cur 1
    let v ← dataFirstInt g.cur.data
    .ok (set inst v, g2)
  else .ok (inst, g)

/-- `SimpleOptionalRecord.read` for a descriptor whose record holds a REAL8
scalar (the `mag` and `angle` sub-descriptors of `STransRecord`). -/
def simpleOptionalReadReal {α : Type} (gdsRecord : Nat) (set : α → Nat → α)
    (inst : α) (g : GS) : Except Err (α × GS) :=
  if g.cur.tag = gdsRecord then do
    let g2 ← gnext g
    let _ ← checkSize g.cur 1
    let v ← dataFirstReal g.cur.data
    .ok (set inst v, g2)
  else .ok (inst, g)

/-- `OptionalWholeRecord.read` from `gdsii/_records.py` (inherited
`SimpleOptionalRecord.read` with `optional_read` storing the whole `rec.data`).
`OptionalFlagsRecord`, imported by `gdsii/elements.py` from the missing part
of the sources, is modelled from the spec as exactly this whole-payload
optional reader ("Optional whole-payload: like optional scalar but stores
the full payload tuple (for bitfields, fonts lists, reflibs lists)"). -/
def optionalWholeRead {α : Type} (gdsRecord : Nat) (set : α → PyVal → α)
    (inst : α) (g : GS) : Except Err (α × GS) :=
  if g.cur.tag = gdsRecord then do
    let g2 ← gnext g
    .ok (set inst g.cur.data, g2)
  else .ok (inst, g)

/-- Group a flat INT2 value list into (GID, UID, ACCESS) triples. -/
def tripleAcls : List Int → List (Int × Int × Int)
  | a :: b :: c :: rest => (a, b, c) :: tripleAcls rest
  | _ => []

/-- `RecordData.acls` accessor.  Modelled from the spec (the accessor lives
in the missing `gdsii/__init__.py`): interpret an INT2 payload as triples
(GID, UID, ACCESS); the length must be a nonzero multiple of 3. -/
def recAcls (r : RecordData) : Except Err (List (Int × Int × Int)) :=
  match r.data with
  | .ints vs =>
    if vs.length = 0 ∨ vs.length % 3 ≠ 0 then .error (.dataSizeError r.tag)
    else .ok (tripleAcls vs)
  | _ => .error .typeError

/-- `ACLRecord.read` from `gdsii/_records.py` (inherited
`SimpleOptionalRecord.read` with `optional_read` storing `rec.acls`). -/
def aclRead {α : Type} (gdsRecord : Nat) (set : α → List (Int × Int × Int) → α)
    (inst : α) (g : GS) : Except Err (α × GS) :=
  if g.cur.tag = gdsRecord then do
    let g2 ← gnext g
    let v ← recAcls g.cur
    .ok (set inst v, g2)
  else .ok (inst, g)

/-- `STransRecord.read` from `gdsii/_records.py` (inherited
`SimpleOptionalRecord.read`; `optional_read` stores the whole bitfield and
then reads the optional `mag` and `angle` sub-descriptors). -/
def stransRead {α : Type} (gdsRecord : Nat) (setS : α → PyVal → α)
    (setM : α → Nat → α) (setA : α → Nat → α) (inst : α) (g : GS) :
    Except Err (α × GS) :=
  if g.cur.tag = gdsRecord then do
    let g2 ← gnext g
    let i := setS inst g.cur.data
    let (i, g3) ← simpleOptionalReadReal tags.MAG setM i g2
    let (i, g4) ← simpleOptionalReadReal tags.ANGLE setA i g3
    .ok (i, g4)
  else .ok (inst, g)

/-- `FormatRecord.read` from `gdsii/_records.py` (inherited
`SimpleOptionalRecord.read`; `optional_read` stores the format code and,
for format codes 1 and 3, evaluates `gen.curent` — a typo for `current` —
which raises `AttributeError` before the MASK loop can run). -/
def formatRead {α : Type} (gdsRecord : Nat) (set : α → Int → α) (inst : α)
    (g : GS) : Except Err (α × GS) :=
  if g.cur.tag = gdsRecord then do
    let g2 ← gnext g
    let _ ← checkSize g.cur 1
    let v ← dataFirstInt g.cur.data
    let i := set inst v
    if v = 1 ∨ v = 3 then .error .attributeError
    else .ok (i, g2)
  else .ok (inst, g)

/-- `XYRecord.read` from `gdsii/_records.py`: check the tag, store
`rec.points`, advance. -/
def xyRead {α : Type} (gdsRecord : Nat) (set : α → List (Int × Int) → α)
    (inst : α) (g : GS) : Except Err (α × GS) := do
  let _ ← checkTag g.cur gdsRecord
  let ps ← recPoints g.cur
  let g2 ← gnext g
  .ok (set inst ps, g2)

/-- `StringRecord.read` from `gdsii/_records.py`: check the tag, store the
whole `rec.data`, advance. -/
def stringRead {α : Type} (gdsRecord : Nat) (set : α → PyVal → α) (inst : α)
    (g : GS) : Except Err (α × GS) := do
  let _ ← checkTag g.cur gdsRecord
  let g2 ← gnext g
  .ok (set inst g.cur.data, g2)

/-- `ColRowRecord.read` from `gdsii/_records.py`: check tag COLROW, check
size 2, store the two values, advance. -/
def colRowRead {α : Type} (set : α → Int → Int → α) (inst : α) (g : GS) :
    Except Err (α × GS) := do
  let _ ← checkTag g.cur tags.COLROW
  let _ ← checkSize g.cur 2
  let (c, r) ← dataTwoInts g.cur.data
  let g2 ← gnext g
  .ok (set inst c r, g2)

/-- The loop body of `PropertiesRecord.read` from `gdsii/_records.py`:
collect (PROPATTR, PROPVALUE) pairs while the current record is a PROPATTR.
The fuel is always sufficient (each iteration consumes two records). -/
def propertiesReadFuel : Nat → GS → Except Err (List (Int × PyVal) × GS)
  | 0, _ => .error .fuelError
  | fuel + 1, g =>
    if g.cur.tag = tags.PROPATTR then do
      let _ ← checkSize g.cur 1
      let a ← dataFirstInt g.cur.data
      let g2 ← gnext g
      let _ ← checkTag g2.cur tags.PROPVALUE
      let v := g2.cur.data
      let g3 ← gnext g2
      let (ps, g4) ← propertiesReadFuel fuel g3
      .ok ((a, v) :: ps, g4)
    else .ok ([], g)

/-- `PropertiesRecord.read` from `gdsii/_records.py`. -/
def propertiesRead {α : Type} (set : α → List (Int × PyVal) → α) (inst : α)
    (g : GS) : Except Err (α × GS) := do
  let (ps, g2) ← propertiesReadFuel (g.rest.length + 1) g
  .ok (set inst ps, g2)

/-! ## Elements (`gdsii/elements.py`)

Element instances are created with `cls.__new__(cls)` (no `__init__`); each
descriptor's `read` then assigns its field.  The `blank` values below model
the freshly allocated instance: optional fields behave as unset (`None` via
`getattr(..., None)`), and the placeholder values of mandatory fields are
always overwritten before the reader returns successfully. -/

/-- `Boundary` from `gdsii/elements.py`:
`_gds_objs = (elflags, plex, layer, data_type, xy, properties)`. -/
structure GBoundary : Type where
  elflags : Option PyVal := none
  plex : Option Int := none
  layer : Int := 0
  dataType : Int := 0
  xy : List (Int × Int) := []
  properties : List (Int × PyVal) := []
deriving DecidableEq, Repr

/-- `Path` from `gdsii/elements.py`: `_gds_objs = (elflags, plex, layer,
data_type, path_type, width, bgn_extn, end_extn, xy, properties)`. -/
structure GPath : Type where
  elflags : Option PyVal := none
  plex : Option Int := none
  layer : Int := 0
  dataType : Int := 0
  pathType : Option Int := none
  width : Option Int := none
  bgnExtn : Option Int := none
  endExtn : Option Int := none
  xy : List (Int × Int) := []
  properties : List (Int × PyVal) := []
deriving DecidableEq, Repr

/-- `SRef` from `gdsii/elements.py`:
`_gds_objs = (elflags, plex, struct_name, strans, xy, properties)`. -/
structure GSRef : Type where
  elflags : Option PyVal := none
  plex : Option Int := none
  structName : PyVal := .none
  strans : Option PyVal := none
  mag : Option Nat := none
  angle : Option Nat := none
  xy : List (Int × Int) := []
  properties : List (Int × PyVal) := []
deriving DecidableEq, Repr

/-- `ARef` from `gdsii/elements.py`:
`_gds_objs = (elflags, plex, struct_name, strans, colrow, xy, properties)`. -/
structure GARef : Type where
  elflags : Option PyVal := none
  plex : Option Int := none
  structName : PyVal := .none
  strans : Option PyVal := none
  mag : Option Nat := none
  angle : Option Nat := none
  cols : Int := 0
  rows : Int := 0
  xy : List (Int × Int) := []
  properties : List (Int × PyVal) := []
deriving DecidableEq, Repr

/-- `Text` from `gdsii/elements.py`: `_gds_objs = (elflags, plex, layer,
text_type, presentation, path_type, width, strans, xy, string, properties)`. -/
structure GText : Type where
  elflags : Option PyVal := none
  plex : Option Int := none
  layer : Int := 0
  textType : Int := 0
  presentation : Option PyVal := none
  pathType : Option Int := none
  width : Option Int := none
  strans : Option PyVal := none
  mag : Option Nat := none
  angle : Option Nat := none
  xy : List (Int × Int) := []
  string : PyVal := .none
  properties : List (Int × PyVal) := []
deriving DecidableEq, Repr

/-- `Node` from `gdsii/elements.py`:
`_gds_objs = (elflags, plex, layer, node_type, xy)` — no properties. -/
structure GNode : Type where
  elflags : Option PyVal := none
  plex : Option Int := none
  layer : Int := 0
  nodeType : Int := 0
  xy : List (Int × Int) := []
deriving DecidableEq, Repr

/-- `Box` from `gdsii/elements.py`:
`_gds_objs = (elflags, plex, layer, box_type, xy, properties)`. -/
structure GBox : Type where
  elflags : Option PyVal := none
  plex : Option Int := none
  layer : Int := 0
  boxType : Int := 0
  xy : List (Int × Int) := []
  properties : List (Int × PyVal) := []
deriving DecidableEq, Repr

/-- The element sum type (one arm per concrete `ElementBase` subclass). -/
inductive GElement : Type where
  | boundary : GBoundary → GElement
  | path : GPath → GElement
  | sref : GSRef → GElement
  | aref : GARef → GElement
  | text : GText → GElement
  | node : GNode → GElement
  | box : GBox → GElement
deriving DecidableEq, Repr

/-- `Boundary._read_element` (from `ElementBase._read_element` plus the
`Boundary._gds_objs` descriptor list): advance past the opening record,
run each descriptor's `read`, require and consume ENDEL. -/
def boundaryRead (g0 : GS) : Except Err (GBoundary × GS) := do
  let g ← gnext g0
  let (i, g) ← optionalWholeRead tags.ELFLAGS
    (fun i v => { i with elflags := some v }) ({} : GBoundary) g
  let (i, g) ← simpleOptionalRead tags.PLEX (fun i v => { i with plex := some v }) i g
  let (i, g) ← simpleRead tags.LAYER (fun i v => { i with layer := v }) i g
  let (i, g) ← simpleRead tags.DATATYPE (fun i v => { i with dataType := v }) i g
  let (i, g) ← xyRead tags.XY (fun i v => { i with xy := v }) i g
  let (i, g) ← propertiesRead (fun i v => { i with properties := v }) i g
  let _ ← checkTag g.cur tags.ENDEL
  let g ← gnext g
  .ok (i, g)

/-- `Path._read_element`. -/
def pathRead (g0 : GS) : Except Err (GPath × GS) := do
  let g ← gnext g0
  let (i, g) ← optionalWholeRead tags.ELFLAGS
    (fun i v => { i with elflags := some v }) ({} : GPath) g
  let (i, g) ← simpleOptionalRead tags.PLEX (fun i v => { i with plex := some v }) i g
  let (i, g) ← simpleRead tags.LAYER (fun i v => { i with layer := v }) i g
  let (i, g) ← simpleRead tags.DATATYPE (fun i v => { i with dataType := v }) i g
  let (i, g) ← simpleOptionalRead tags.PATHTYPE (fun i v => { i with pathType := some v }) i g
  let (i, g) ← simpleOptionalRead tags.WIDTH (fun i v => { i with width := some v }) i g
  let (i, g) ← simpleOptionalRead tags.BGNEXTN (fun i v => { i with bgnExtn := some v }) i g
  let (i, g) ← simpleOptionalRead tags.ENDEXTN (fun i v => { i with endExtn := some v }) i g
  let (i, g) ← xyRead tags.XY (fun i v => { i with xy := v }) i g
  let (i, g) ← propertiesRead (fun i v => { i with properties := v }) i g
  let _ ← checkTag g.cur tags.ENDEL
  let g ← gnext g
  .ok (i, g)

/-- `SRef._read_element`. -/
def srefRead (g0 : GS) : Except Err (GSRef × GS) := do
  let g ← gnext g0
  let (i, g) ← optionalWholeRead tags.ELFLAGS
    (fun i v => { i with elflags := some v }) ({} : GSRef) g
  let (i, g) ← simpleOptionalRead tags.PLEX (fun i v => { i with plex := some v }) i g
  let (i, g) ← stringRead tags.SNAME (fun i v => { i with structName := v }) i g
  let (i, g) ← stransRead tags.STRANS (fun i v => { i with strans := some v })
    (fun i v => { i with mag := some v }) (fun i v => { i with angle := some v }) i g
  let (i, g) ← xyRead tags.XY (fun i v => { i with xy := v }) i g
  let (i, g) ← propertiesRead (fun i v => { i with properties := v }) i g
  let _ ← checkTag g.cur tags.ENDEL
  let g ← gnext g
  .ok (i, g)

/-- `ARef._read_element`. -/
def arefRead (g0 : GS) : Except Err (GARef × GS) := do
  let g ← gnext g0
  let (i, g) ← optionalWholeRead tags.ELFLAGS
    (fun i v => { i with elflags := some v }) ({} : GARef) g
  let (i, g) ← simpleOptionalRead tags.PLEX (fun i v => { i with plex := some v }) i g
  let (i, g) ← stringRead tags.SNAME (fun i v => { i with structName := v }) i g
  let (i, g) ← stransRead tags.STRANS (fun i v => { i with strans := some v })
    (fun i v => { i with mag := some v }) (fun i v => { i with angle := some v }) i g
  let (i, g) ← colRowRead (fun i c r => { i with cols := c, rows := r }) i g
  let (i, g) ← xyRead tags.XY (fun i v => { i with xy := v }) i g
  let (i, g) ← propertiesRead (fun i v => { i with properties := v }) i g
  let _ ← checkTag g.cur tags.ENDEL
  let g ← gnext g
  .ok (i, g)

/-- `Text._read_element`. -/
def textRead (g0 : GS) : Except Err (GText × GS) := do
  let g ← gnext g0
  let (i, g) ← optionalWholeRead tags.ELFLAGS
    (fun i v => { i with elflags := some v }) ({} : GText) g
  let (i, g) ← simpleOptionalRead tags.PLEX (fun i v => { i with plex := some v }) i g
  let (i, g) ← simpleRead tags.LAYER (fun i v => { i with layer := v }) i g
  let (i, g) ← simpleRead tags.TEXTTYPE (fun i v => { i with textType := v }) i g
  let (i, g) ← optionalWholeRead tags.PRESENTATION
    (fun i v => { i with presentation := some v }) i g
  let (i, g) ← simpleOptionalRead tags.PATHTYPE (fun i v => { i with pathType := some v }) i g
  let (i, g) ← simpleOptionalRead tags.WIDTH (fun i v => { i with width := some v }) i g
  let (i, g) ← stransRead tags.STRANS (fun i v => { i with strans := some v })
    (fun i v => { i with mag := some v }) (fun i v => { i with angle := some v }) i g
  let (i, g) ← xyRead tags.XY (fun i v => { i with xy := v }) i g
  let (i, g) ← stringRead tags.STRING (fun i v => { i with string := v }) i g
  let (i, g) ← propertiesRead (fun i v => { i with properties := v }) i g
  let _ ← checkTag g.cur tags.ENDEL
  let g ← gnext g
  .ok (i, g)

/-- `Node._read_element`. -/
def nodeRead (g0 : GS) : Except Err (GNode × GS) := do
  let g ← gnext g0
  let (i, g) ← optionalWholeRead tags.ELFLAGS
    (fun i v => { i with elflags := some v }) ({} : GNode) g
  let (i, g) ← simpleOptionalRead tags.PLEX (fun i v => { i with plex := some v }) i g
  let (i, g) ← simpleRead tags.LAYER (fun i v => { i with layer := v }) i g
  let (i, g) ← simpleRead tags.NODETYPE (fun i v => { i with nodeType := v }) i g
  let (i, g) ← xyRead tags.XY (fun i v => { i with xy := v }) i g
  let _ ← checkTag g.cur tags.ENDEL
  let g ← gnext g
  .ok (i, g)

/-- `Box._read_element`. -/
def boxRead (g0 : GS) : Except Err (GBox × GS) := do
  let g ← gnext g0
  let (i, g) ← optionalWholeRead tags.ELFLAGS
    (fun i v => { i with elflags := some v }) ({} : GBox) g
  let (i, g) ← simpleOptionalRead tags.PLEX (fun i v => { i with plex := some v }) i g
  let (i, g) ← simpleRead tags.LAYER (fun i v => { i with layer := v }) i g
  let (i, g) ← simpleRead tags.BOXTYPE (fun i v => { i with boxType := v }) i g
  let (i, g) ← xyRead tags.XY (fun i v => { i with xy := v }) i g
  let (i, g) ← propertiesRead (fun i v => { i with properties := v }) i g
  let _ ← checkTag g.cur tags.ENDEL
  let g ← gnext g
  .ok (i, g)

/-- The element kinds, for `ElementBase._tag_to_class_map`. -/
inductive ElemKind : Type where
  | boundary | path | sref | aref | text | node | box
deriving DecidableEq, Repr

/-- `ElementBase._tag_to_class_map` from `gdsii/elements.py`:
`dict((cls._gds_tag, cls) for cls in _all_elements)`. -/
def tagToClass (tag : Nat) : Option ElemKind :=
  if tag = tags.BOUNDARY then some .boundary
  else if tag = tags.PATH then some .path
  else if tag = tags.SREF then some .sref
  else if tag = tags.AREF then some .aref
  else if tag = tags.TEXT then some .text
  else if tag = tags.NODE then some .node
  else if tag = tags.BOX then some .box
  else none

/-- `ElementBase.load` from `gdsii/elements.py`:
`element_class = cls._tag_to_class_map[recs.current.tag]` — a dict
subscript, so an unknown opening tag raises `KeyError` (a Python builtin,
not a `FormatError`).  The subsequent
`if not element_class: raise FormatError('unexpected element tag')`
guard can never fire: the subscript has already raised, and a class object
is always truthy. -/
def elementLoad (g : GS) : Except Err (GElement × GS) := do
  match tagToClass g.cur.tag with
  | none => .error (.keyError g.cur.tag)
  | some k =>
    match k with
    | .boundary => (boundaryRead g).map fun (e, g2) => (.boundary e, g2)
    | .path => (pathRead g).map fun (e, g2) => (.path e, g2)
    | .sref => (srefRead g).map fun (e, g2) => (.sref e, g2)
    | .aref => (arefRead g).map fun (e, g2) => (.aref e, g2)
    | .text => (textRead g).map fun (e, g2) => (.text e, g2)
    | .node => (nodeRead g).map fun (e, g2) => (.node e, g2)
    | .box => (boxRead g).map fun (e, g2) => (.box e, g2)

/-! ## Save paths

`ElementBase.save`, `Structure.save` and `Library.save` each emit a
determined sequence of `RecordData(...)` values, each saved to the stream in
order.  The embedding first computes that record sequence (`...Recs` below)
and then frames it with `framesBytes`; on the success path this produces the
same byte stream as the interleaved Python writes. -/

/-- `SimpleOptionalRecord.save`: emit `RecordData(tag, (value,))` when the
attribute is set (`getattr(..., None) is not None`). -/
def optScalarRecs (tag : Nat) : Option Int → List RecordData
  | none => []
  | some v => [⟨tag, .ints [v]⟩]

/-- `SimpleOptionalRecord.save` for a REAL8 scalar descriptor. -/
def optRealRecs (tag : Nat) : Option Nat → List RecordData
  | none => []
  | some x => [⟨tag, .reals [x]⟩]

/-- `OptionalWholeRecord.save`: emit `RecordData(tag, data)` when set. -/
def optWholeRecs (tag : Nat) : Option PyVal → List RecordData
  | none => []
  | some d => [⟨tag, d⟩]

/-- `STransRecord.save`: when the bitfield is set, emit it followed by the
optional MAG and ANGLE records; nothing otherwise. -/
def stransRecs (strans : Option PyVal) (mag angle : Option Nat) : List RecordData :=
  match strans with
  | none => []
  | some d => ⟨tags.STRANS, d⟩ :: (optRealRecs tags.MAG mag ++ optRealRecs tags.ANGLE angle)

/-- `PropertiesRecord.save`: a PROPATTR/PROPVALUE pair per property, in list
order. -/
def propsRecs (ps : List (Int × PyVal)) : List RecordData :=
  ps.flatMap fun (a, v) => [⟨tags.PROPATTR, .ints [a]⟩, ⟨tags.PROPVALUE, v⟩]

/-- `Boundary.save` (from `ElementBase.save` plus `Boundary._gds_objs`):
opening NODATA record, descriptors in order, ENDEL. -/
def boundaryRecs (b : GBoundary) : List RecordData :=
  ⟨tags.BOUNDARY, .none⟩ ::
    (optWholeRecs tags.ELFLAGS b.elflags ++ optScalarRecs tags.PLEX b.plex ++
      [⟨tags.LAYER, .ints [b.layer]⟩, ⟨tags.DATATYPE, .ints [b.dataType]⟩,
        ⟨tags.XY, .ints (flattenPoints b.xy)⟩] ++
      propsRecs b.properties ++ [⟨tags.ENDEL, .none⟩])

/-- `Path.save`. -/
def pathRecs (p : GPath) : List RecordData :=
  ⟨tags.PATH, .none⟩ ::
    (optWholeRecs tags.ELFLAGS p.elflags ++ optScalarRecs tags.PLEX p.plex ++
      [⟨tags.LAYER, .ints [p.layer]⟩, ⟨tags.DATATYPE, .ints [p.dataType]⟩] ++
      optScalarRecs tags.PATHTYPE p.pathType ++ optScalarRecs tags.WIDTH p.width ++
      optScalarRecs tags.BGNEXTN p.bgnExtn ++ optScalarRecs tags.ENDEXTN p.endExtn ++
      [⟨tags.XY, .ints (flattenPoints p.xy)⟩] ++
      propsRecs p.properties ++ [⟨tags.ENDEL, .none⟩])

/-- `SRef.save`. -/
def srefRecs (s : GSRef) : List RecordData :=
  ⟨tags.SREF, .none⟩ ::
    (optWholeRecs tags.ELFLAGS s.elflags ++ optScalarRecs tags.PLEX s.plex ++
      [⟨tags.SNAME, s.structName⟩] ++ stransRecs s.strans s.mag s.angle ++
      [⟨tags.XY, .ints (flattenPoints s.xy)⟩] ++
      propsRecs s.properties ++ [⟨tags.ENDEL, .none⟩])

/-- `ARef.save`. -/
def arefRecs (a : GARef) : List RecordData :=
  ⟨tags.AREF, .none⟩ ::
    (optWholeRecs tags.ELFLAGS a.elflags ++ optScalarRecs tags.PLEX a.plex ++
      [⟨tags.SNAME, a.structName⟩] ++ stransRecs a.strans a.mag a.angle ++
      [⟨tags.COLROW, .ints [a.cols, a.rows]⟩, ⟨tags.XY, .ints (flattenPoints a.xy)⟩] ++
      propsRecs a.properties ++ [⟨tags.ENDEL, .none⟩])

/-- `Text.save`. -/
def textRecs (t : GText) : List RecordData :=
  ⟨tags.TEXT, .none⟩ ::
    (optWholeRecs tags.ELFLAGS t.elflags ++ optScalarRecs tags.PLEX t.plex ++
      [⟨tags.LAYER, .ints [t.layer]⟩, ⟨tags.TEXTTYPE, .ints [t.textType]⟩] ++
      optWholeRecs tags.PRESENTATION t.presentation ++
      optScalarRecs tags.PATHTYPE t.pathType ++ optScalarRecs tags.WIDTH t.width ++
      stransRecs t.strans t.mag t.angle ++
      [⟨tags.XY, .ints (flattenPoints t.xy)⟩, ⟨tags.STRING, t.string⟩] ++
      propsRecs t.properties ++ [⟨tags.ENDEL, .none⟩])

/-- `Node.save`. -/
def nodeRecs (n : GNode) : List RecordData :=
  ⟨tags.NODE, .none⟩ ::
    (optWholeRecs tags.ELFLAGS n.elflags ++ optScalarRecs tags.PLEX n.plex ++
      [⟨tags.LAYER, .ints [n.layer]⟩, ⟨tags.NODETYPE, .ints [n.nodeType]⟩,
        ⟨tags.XY, .ints (flattenPoints n.xy)⟩, ⟨tags.ENDEL, .none⟩])

/-- `Box.save`. -/
def boxRecs (b : GBox) : List RecordData :=
  ⟨tags.BOX, .none⟩ ::
    (optWholeRecs tags.ELFLAGS b.elflags ++ optScalarRecs tags.PLEX b.plex ++
      [⟨tags.LAYER, .ints [b.layer]⟩, ⟨tags.BOXTYPE, .ints [b.boxType]⟩,
        ⟨tags.XY, .ints (flattenPoints b.xy)⟩] ++
      propsRecs b.properties ++ [⟨tags.ENDEL, .none⟩])

/-- `ElementBase.save` dispatch. -/
def elementRecs : GElement → List RecordData
  | .boundary b => boundaryRecs b
  | .path p => pathRecs p
  | .sref s => srefRecs s
  | .aref a => arefRecs a
  | .text t => textRecs t
  | .node n => nodeRecs n
  | .box b => boxRecs b

/-! ## Structures and the library (`gdsii/structure.py`, `gdsii/library.py`) -/

/-- `Structure` from `gdsii/structure.py`. -/
structure GStructure : Type where
  modTime : PyDatetime
  accTime : PyDatetime
  name : PyVal
  elements : List GElement
deriving DecidableEq, Repr

/-- The element loop of `Structure.__init__`:
`while recs.current.tag != ENDSTR: elements.append(ElementBase.load(recs))`.
The fuel is always sufficient (each load consumes at least one record). -/
def elementsLoopFuel : Nat → GS → Except Err (List GElement × GS)
  | 0, _ => .error .fuelError
  | fuel + 1, g =>
    if g.cur.tag = tags.ENDSTR then .ok ([], g)
    else do
      let (e, g2) ← elementLoad g
      let (es, g3) ← elementsLoopFuel fuel g2
      .ok (e :: es, g3)

/-- `Structure.__init__` from `gdsii/structure.py`.  On entry the current
record is the BGNSTR record; on success the current record is the ENDSTR
record (the library loop advances past it). -/
def structureInit (g0 : GS) : Except Err (GStructure × GS) := do
  let (modTime, accTime) ← recTimes g0.cur
  let g ← gnext g0
  let _ ← checkTag g.cur tags.STRNAME
  let name := g.cur.data
  let g ← gnext g
  let g ← ignoreRecord g tags.STRCLASS
  let (elems, g) ← elementsLoopFuel (g.rest.length + 1) g
  .ok (⟨modTime, accTime, name, elems⟩, g)

/-- `Structure.save` from `gdsii/structure.py`. -/
def structureRecs (s : GStructure) : List RecordData :=
  ⟨tags.BGNSTR, .ints (timesList s.modTime s.accTime)⟩ ::
    ⟨tags.STRNAME, s.name⟩ ::
    (s.elements.flatMap elementRecs ++ [⟨tags.ENDSTR, .none⟩])

/-- `Library` from `gdsii/library.py`. -/
structure GLibrary : Type where
  version : Int
  modTime : PyDatetime
  accTime : PyDatetime
  name : PyVal
  logicalUnit : Nat
  physicalUnit : Nat
  structures : List GStructure
deriving DecidableEq, Repr

/-- The MASK loop of `Library.__init__`: records after a FORMAT record, a
run of MASK records closed by ENDMASKS. -/
def maskLoopFuel : Nat → GS → Except Err GS
  | 0, _ => .error .fuelError
  | fuel + 1, g => do
    let g2 ← gnext g
    if g2.cur.tag = tags.ENDMASKS then gnext g2
    else do
      let _ ← checkTag g2.cur tags.MASK
      maskLoopFuel fuel g2

/-- The `if rec.tag == tags.FORMAT` block of `Library.__init__` (ignore
FORMAT and any following MASK+ ENDMASKS run). -/
def formatSkip (g : GS) : Except Err GS :=
  if g.cur.tag = tags.FORMAT then do
    let g2 ← gnext g
    if g2.cur.tag = tags.MASK then maskLoopFuel (g2.rest.length + 1) g2
    else .ok g2
  else .ok g

/-- The structure loop of `Library.__init__`: repeat
`rec = next(recs); if BGNSTR: append Structure(recs); elif ENDLIB: break;
else: raise FormatError(...)`. -/
def structuresLoopFuel : Nat → GS → Except Err (List GStructure × GS)
  | 0, _ => .error .fuelError
  | fuel + 1, g => do
    let g2 ← gnext g
    if g2.cur.tag = tags.BGNSTR then do
      let (s, g3) ← structureInit g2
      let (ss, g4) ← structuresLoopFuel fuel g3
      .ok (s :: ss, g4)
    else if g2.cur.tag = tags.ENDLIB then .ok ([], g2)
    else .error (.formatError "unexpected tag where BGNSTR or ENDLIB are expected")

/-- `Library.__init__` from `gdsii/library.py`, over the record sequence
produced by `all_records`.  Returns the library together with the records
remaining after the final ENDLIB record. -/
def libraryInit (rs : List RecordData) : Except Err (GLibrary × List RecordData) :=
  match rs with
  | [] => .error .stopIteration
  | r :: rest => do
    let g : GS := ⟨r, rest⟩
    let _ ← checkTag g.cur tags.HEADER
    let _ ← checkSize g.cur 1
    let version ← dataFirstInt g.cur.data
    let g ← gnext g
    let _ ← checkTag g.cur tags.BGNLIB
    let (modTime, accTime) ← recTimes g.cur
    let g ← gnext g
    let g ← ignoreRecord g tags.LIBDIRSIZE
    let g ← ignoreRecord g tags.SRFNAME
    let g ← ignoreRecord g tags.LIBSECUR
    let _ ← checkTag g.cur tags.LIBNAME
    let name := g.cur.data
    let g ← gnext g
    let g ← ignoreRecord g tags.REFLIBS
    let g ← ignoreRecord g tags.FONTS
    let g ← ignoreRecord g tags.ATTRTABLE
    let g ← ignoreRecord g tags.GENERATIONS
    let g ← formatSkip g
    let _ ← checkTag g.cur tags.UNITS
    let _ ← checkSize g.cur 2
    let (lu, pu) ← dataTwoReals g.cur.data
    let (structs, g) ← structuresLoopFuel (g.rest.length + 1) g
    .ok (⟨version, modTime, accTime, name, lu, pu, structs⟩, g.rest)

/-- `Library.save` from `gdsii/library.py`: HEADER, BGNLIB, LIBNAME, UNITS,
the structures, ENDLIB; the optional records (LIBDIRSIZE, SRFNAME, LIBSECUR,
REFLIBS, FONTS, ATTRTABLE, GENERATIONS, FORMAT/MASK/ENDMASKS) are never
emitted (the source carries `# ignore tags....` comments in their place). -/
def libraryRecs (l : GLibrary) : List RecordData :=
  ⟨tags.HEADER, .ints [l.version]⟩ ::
    ⟨tags.BGNLIB, .ints (timesList l.modTime l.accTime)⟩ ::
    ⟨tags.LIBNAME, l.name⟩ ::
    ⟨tags.UNITS, .reals [l.logicalUnit, l.physicalUnit]⟩ ::
    (l.structures.flatMap structureRecs ++ [⟨tags.ENDLIB, .none⟩])

/-- `Library.save` at the byte level. -/
def librarySaveBytes (l : GLibrary) : Except Err (List Nat) :=
  framesBytes (libraryRecs l)

/-- Decoding a byte stream to a `Library`:
`Library(all_records(stream))`, the composition used by the library's
callers.  (The Python generator is lazy; on every successful parse the
eager two-phase composition consumes exactly the same records and returns
the same library.) -/
def byteDecode (stream : List Nat) : Except Err GLibrary := do
  let (rs, _) ← allRecords stream
  let (l, _) ← libraryInit rs
  .ok l

/-! ## The `pygdsii` element readers (`pygdsii/elements.py`)

These readers consume a plain record generator (no lookahead buffer), so the
state is just the list of records not yet yielded. -/

/-- `next(recs)` on a plain record generator. -/
def pynext (recs : List RecordData) : Except Err (RecordData × List RecordData) :=
  match recs with
  | [] => .error .stopIteration
  | r :: rest => .ok (r, rest)

/-- `_ignore_record(recs, lastrec, tag)` from `pygdsii/__init__.py`. -/
def pyIgnore (recs : List RecordData) (lastrec : RecordData) (tag : Nat) :
    Except Err (RecordData × List RecordData) :=
  if lastrec.tag ≠ tag then .ok (lastrec, recs) else pynext recs

/-- `BoundaryElement` of `pygdsii/elements.py` as produced by reading
(`_properties` is initialised to `[]` by `_read_start`; the PROPATTR branch
of `_read_rest` can never complete, see `pyReadRest`). -/
structure PyBoundaryElement : Type where
  layer : Int
  dataType : Int
  points : List (Int × Int)
  properties : List (Int × PyVal)
deriving DecidableEq, Repr

/-- `ElementBase._read_rest` from `pygdsii/elements.py`: read records until
ENDEL.  The PROPATTR branch executes `rec = next(rec)` — `next()` applied
to the `RecordData` itself instead of the generator — which raises
`TypeError` (a `RecordData` is not an iterator), so any element carrying
properties fails here.  (The following line would also fail:
`self._properties[propattr] = rec.data` assigns into an empty Python list.)
Although the source is a `while True` loop, every branch of its body
terminates it (TypeError, break, or FormatError), so the embedding needs no
recursion. -/
def pyReadRest (recs : List RecordData) : Except Err (List RecordData) := do
  let (rec, recs2) ← pynext recs
  if rec.tag = tags.PROPATTR then do
    let _ ← checkSize rec 1
    let _ ← dataFirstInt rec.data
    .error .typeError
  else if rec.tag = tags.ENDEL then .ok recs2
  else .error (.formatError "unexpected tag where PROPATTR or ENDEL are expected")

/-- `BoundaryElement._read_element` from `pygdsii/elements.py`, including
the inherited `_read_start` chain
(`ElementBase` → `ElementWithLayer` → `ElementWithLayerAndDataType`):
skip optional ELFLAGS/PLEX, read LAYER, DATATYPE, then the XY record with
the Boundary shape checks (≥ 4 points, closed), store the points with the
duplicated closing point dropped, and read properties/ENDEL. -/
def pyBoundaryReadElement (recs0 : List RecordData) :
    Except Err (PyBoundaryElement × List RecordData) := do
  let (rec, recs) ← pynext recs0
  let (rec, recs) ← pyIgnore recs rec tags.ELFLAGS
  let (rec, recs) ← pyIgnore recs rec tags.PLEX
  let _ ← checkTag rec tags.LAYER
  let _ ← checkSize rec 1
  let layer ← dataFirstInt rec.data
  let (rec, recs) ← pynext recs
  let _ ← checkTag rec tags.DATATYPE
  let _ ← checkSize rec 1
  let dataType ← dataFirstInt rec.data
  let (rec, recs) ← pynext recs
  let _ ← checkTag rec tags.XY
  let points ← recPoints rec
  if points.length < 4 then .error (.formatError "less then 4 points in BOUNDARY")
  else if points.head? ≠ points.getLast? then
    .error (.formatError "BOUNDARY should be closed")
  else do
    let recs ← pyReadRest recs
    .ok (⟨layer, dataType, points.dropLast, []⟩, recs)

/-! ## Auxiliary definitions for the theorems -/

/-- Decidable equality of `Except` results (for evaluating concrete runs). -/
instance {ε α : Type} [DecidableEq ε] [DecidableEq α] : DecidableEq (Except ε α) :=
  fun a b =>
    match a, b with
    | .ok x, .ok y => if h : x = y then .isTrue (by rw [h]) else .isFalse (by simp [h])
    | .error x, .error y => if h : x = y then .isTrue (by rw [h]) else .isFalse (by simp [h])
    | .ok _, .error _ => .isFalse (by simp)
    | .error _, .ok _ => .isFalse (by simp)

/-- The record framer as worded by the spec (for the refinement claim C4):
fail with ShortRead (`EndOfFileError`) when fewer than 4 header bytes are
available; fail with BadLength (`IncorrectDataSize`) when the 16-bit
`total_size` is less than 4 or odd; fail with ShortRead when the payload is
truncated; otherwise consume exactly `total_size - 4` payload bytes after
the header. -/
def readRecordSpec (s : List Nat) : Except Err ((Nat × List Nat) × List Nat) :=
  if s.length < 4 then .error .endOfFileError
  else
    let totalSize := beU16 (s.getD 0 0) (s.getD 1 0)
    let tag := beU16 (s.getD 2 0) (s.getD 3 0)
    if totalSize < 4 ∨ totalSize % 2 = 1 then .error .incorrectDataSize
    else if s.length < totalSize then .error .endOfFileError
    else .ok ((tag, (s.drop 4).take (totalSize - 4)), s.drop totalSize)

/-- The record stream as seen from a buffered-generator state: the current
record followed by the not-yet-fetched ones. -/
def streamOf (g : GS) : List RecordData := g.cur :: g.rest

/-- Prefix a record run onto a buffered-generator state. -/
def gsAppend (l : List RecordData) (g : GS) : GS :=
  match l with
  | [] => g
  | a :: rest => ⟨a, rest ++ streamOf g⟩

/-- Apply an optional value through a setter (used to describe the result of
optional descriptor reads). -/
def optApply {α β : Type} (set : α → β → α) (o : Option β) (inst : α) : α :=
  match o with
  | none => inst
  | some v => set inst v

/-- The combined effect of a successful `STransRecord.read`: nothing when no
STRANS record is present, otherwise the strans flags and the optional MAG and
ANGLE values applied through their setters. -/
def stransApply {α : Type} (setS : α → PyVal → α) (setM setA : α → Nat → α)
    (so : Option PyVal) (mo ao : Option Nat) (inst : α) : α :=
  match so with
  | none => inst
  | some d => optApply setA ao (optApply setM mo (setS inst d))

/-- The library-header and structure records that `Library.__init__` /
`Structure.__init__` parse but whose contents `save` never re-emits. -/
def ignoredTags : List Nat :=
  [tags.LIBDIRSIZE, tags.SRFNAME, tags.LIBSECUR, tags.REFLIBS, tags.FONTS,
   tags.ATTRTABLE, tags.GENERATIONS, tags.FORMAT, tags.MASK, tags.ENDMASKS,
   tags.STRCLASS]

/-- A record is well formed for the round trip when a NODATA tag carries no
payload (guaranteed for records produced by `all_records`) and it is not one
of the parse-and-discard optional records. -/
def GoodRec (r : RecordData) : Prop :=
  (typeOfTag r.tag = 0 → r.data = PyVal.none) ∧ r.tag ∉ ignoredTags

/-- Every record of the run is `GoodRec`. -/
def GoodStream (l : List RecordData) : Prop := ∀ r ∈ l, GoodRec r

/-- A canonical GDSII file: empty library, version 5, name `b"LIB"`,
units 1.0 and 0.5, timestamps 2000-01-01T00:00:00. -/
def emptyLibFile : List Nat :=
  [0, 6, 0, 2, 0, 5] ++
  [0, 28, 1, 2, 0, 100, 0, 1, 0, 1, 0, 0, 0, 0, 0, 0,
   0, 100, 0, 1, 0, 1, 0, 0, 0, 0, 0, 0] ++
  [0, 8, 2, 6, 76, 73, 66, 0] ++
  [0, 20, 3, 5, 0x41, 0x10, 0, 0, 0, 0, 0, 0, 0x40, 0x80, 0, 0, 0, 0, 0, 0] ++
  [0, 4, 4, 0]

/-- `emptyLibFile` with a LIBDIRSIZE record inserted after BGNLIB — a valid
GDSII file that the parser accepts (and whose LIBDIRSIZE record it
discards). -/
def libdirsizeFile : List Nat :=
  [0, 6, 0, 2, 0, 5] ++
  [0, 28, 1, 2, 0, 100, 0, 1, 0, 1, 0, 0, 0, 0, 0, 0,
   0, 100, 0, 1, 0, 1, 0, 0, 0, 0, 0, 0] ++
  [0, 6, 0x39, 2, 0, 1] ++
  [0, 8, 2, 6, 76, 73, 66, 0] ++
  [0, 20, 3, 5, 0x41, 0x10, 0, 0, 0, 0, 0, 0, 0x40, 0x80, 0, 0, 0, 0, 0, 0] ++
  [0, 4, 4, 0]

/-- `emptyLibFile` with the logical unit stored as the non-normalised REAL8
word `0x4101000000000000` (value 0.0625, first hexadecimal fraction digit
zero).  The parser accepts it; re-encoding normalises the word to
`0x4010000000000000`. -/
def nonCanonRealFile : List Nat :=
  [0, 6, 0, 2, 0, 5] ++
  [0, 28, 1, 2, 0, 100, 0, 1, 0, 1, 0, 0, 0, 0, 0, 0,
   0, 100, 0, 1, 0, 1, 0, 0, 0, 0, 0, 0] ++
  [0, 8, 2, 6, 76, 73, 66, 0] ++
  [0, 20, 3, 5, 0x41, 0x01, 0, 0, 0, 0, 0, 0, 0x40, 0x80, 0, 0, 0, 0, 0, 0] ++
  [0, 4, 4, 0]

/-- The record run that `all_records` frames out of `emptyLibFile`. -/
def emptyLibRecs : List RecordData :=
  [⟨2, .ints [5]⟩,
   ⟨258, .ints [100, 1, 1, 0, 0, 0, 100, 1, 1, 0, 0, 0]⟩,
   ⟨518, .bytes [76, 73, 66]⟩,
   ⟨773, .reals [4607182418800017408, 4602678819172646912]⟩,
   ⟨1024, .none⟩]

/-- The library parsed from `emptyLibFile`. -/
def emptyLib : GLibrary :=
  ⟨5, ⟨2000, 1, 1, 0, 0, 0⟩, ⟨2000, 1, 1, 0, 0, 0⟩, .bytes [76, 73, 66],
   4607182418800017408, 4602678819172646912, []⟩

/-! ## General lemmas -/

theorem exceptBind_ok {α β : Type} {x : Except Err α} {f : α → Except Err β} {b : β} :
    x >>= f = .ok b ↔ ∃ a, x = .ok a ∧ f a = .ok b := by
  cases x <;> simp [Bind.bind, Except.bind]

theorem goodStream_append {a b : List RecordData} (h : GoodStream (a ++ b)) :
    GoodStream b := by
  intro r hr
  exact h r (List.mem_append_right a hr)

theorem goodStream_tail {r : RecordData} {l : List RecordData}
    (h : GoodStream (r :: l)) : GoodStream l := by
  intro x hx
  exact h x (List.mem_cons_of_mem r hx)

/-! ## Claim C2 — GDSII real encoding of 1.0, −2.0 and 0.0 -/

/-- C2: the GDSII-real encoder `_real_to_int` maps 1.0 (IEEE-754 bits
`0x3FF0000000000000`) to `0x4110000000000000`, −2.0 (bits
`0xC000000000000000`) to `0xC120000000000000`, and 0.0 (bits 0) to 0. -/
theorem C2_real_encoding_values :
    realToInt 0x3FF0000000000000 = .ok 0x4110000000000000 ∧
    realToInt 0xC000000000000000 = .ok 0xC120000000000000 ∧
    realToInt 0x0000000000000000 = .ok 0 := by
  decide

/-! ## Claim C3 — underflow, overflow, and the subnormal branch -/

/-- C3: in `_real_to_int`, a biased base-16 exponent below −14 yields 0
(shown at the double `2^-1000`, bits `0x0170000000000000`) and one above
`0x7f` raises the overflow `FormatError` (shown at `2^1000`, bits
`0x7E70000000000000`); but for a biased exponent in `[-14, -1]` the claimed
subnormal re-encoding never happens: the code computes
`ieee_mant_comp >> (exp16_biased * 4)` with a negative shift count, which
raises `ValueError` (shown at `2^-261`, bits `0x2FA0000000000000`, whose
biased exponent is −1; the claim instead requires the subnormal word
`0x0008000000000000`). -/
theorem C3_subnormal_branch_raises :
    realToInt 0x2FA0000000000000 = .error .valueError ∧
    realToInt 0x2FA0000000000000 ≠ .ok 0x0008000000000000 ∧
    realToInt 0x0170000000000000 = .ok 0 ∧
    realToInt 0x7E70000000000000 = .error (.formatError "number is to big for REAL8") := by
  refine ⟨by decide, ?_, by decide, by decide⟩
  intro h
  have h2 : realToInt 0x2FA0000000000000 = .error .valueError := by decide
  rw [h2] at h
  exact absurd h (by simp)

/-! ## Claim C8 — element dispatch on an unknown opening tag -/

/-- C8: `ElementBase.load` on a record stream whose current record has the
tag TEXTNODE (`0x1400`, not one of the seven element opening tags) raises
the Python builtin `KeyError` from the `_tag_to_class_map[...]` dict
subscript — not the `FormatError('unexpected element tag')` of the
library's error taxonomy, whose guard is unreachable dead code. -/
theorem C8_unknown_tag_raises_keyerror :
    elementLoad ⟨⟨tags.TEXTNODE, .none⟩, []⟩ = .error (.keyError 0x1400) ∧
    elementLoad ⟨⟨tags.TEXTNODE, .none⟩, []⟩ ≠
      .error (.formatError "unexpected element tag") := by
  refine ⟨by decide, ?_⟩
  intro h
  have h2 : elementLoad ⟨⟨tags.TEXTNODE, .none⟩, []⟩ = .error (.keyError 0x1400) := by
    decide
  rw [h2] at h
  simp at h

/-! ## Claim C4 — record framing errors -/

/-- C4: `_read_record` behaves exactly as specified, on every input stream:
it fails with `EndOfFileError` (ShortRead) when fewer than 4 header bytes
are available, with `IncorrectDataSize` (BadLength) when the 16-bit
`total_size` is less than 4 or odd, with `EndOfFileError` when the payload
is truncated, and otherwise consumes exactly `total_size - 4` payload bytes
after the header (`readRecordSpec` states this, following the words of the
spec). -/
theorem C4_read_record_spec (s : List Nat) : readRecord s = readRecordSpec s := by
  unfold readRecord readRecordSpec
  by_cases h4 : s.length < 4
  · have h1 : (s.take 4).length ≠ 4 := by simp [List.length_take]; omega
    simp [h1, h4]
  · have hlen : (s.take 4).length = 4 := by simp [List.length_take]; omega
    have hget : ∀ i, i < 4 → (s.take 4).getD i 0 = s.getD i 0 := by
      intro i hi
      simp only [List.getD_eq_getElem?_getD]
      congr 1
      exact List.getElem?_take_of_lt hi
    simp only [hlen, ne_eq, not_true_eq_false, if_false, if_neg h4,
      hget 0 (by omega), hget 1 (by omega), hget 2 (by omega), hget 3 (by omega)]
    set ds := beU16 (s.getD 0 0) (s.getD 1 0) with hds
    by_cases hlt : ds < 4
    · simp [hlt]
    · by_cases hodd : ds % 2 = 1
      · have : ds % 2 ≠ 0 := by omega
        simp [hlt, hodd, this]
      · have h2 : ds % 2 = 0 := by omega
        have hor : ¬(ds < 4 ∨ ds % 2 = 1) := by omega
        simp only [if_neg hlt, h2, ne_eq, not_true_eq_false, if_false, if_neg hor]
        by_cases htr : s.length < ds
        · have : ((s.drop 4).take (ds - 4)).length ≠ ds - 4 := by
            simp [List.length_take, List.length_drop]; omega
          simp [this, htr, hlt]
          omega
        · have hl : ((s.drop 4).take (ds - 4)).length = ds - 4 := by
            simp [List.length_take, List.length_drop]; omega
          have hdd : (s.drop 4).drop (ds - 4) = s.drop ds := by
            rw [List.drop_drop]
            congr 1
            omega
          simp [hl, htr, hdd, hlt]

/-! ## Claim C5 — tag types are known or the read fails -/

theorem parseByType_ok_mem {t : Nat} {d : List Nat} {v : PyVal}
    (h : parseByType t d = .ok v) :
    t = 0 ∨ t = 1 ∨ t = 2 ∨ t = 3 ∨ t = 5 ∨ t = 6 := by
  unfold parseByType at h
  split_ifs at h with h0 h1 h2 h3 h5 h6
  · exact Or.inl h0
  · exact Or.inr (Or.inl h1)
  · exact Or.inr (Or.inr (Or.inl h2))
  · exact Or.inr (Or.inr (Or.inr (Or.inl h3)))
  · exact Or.inr (Or.inr (Or.inr (Or.inr (Or.inl h5))))
  · exact Or.inr (Or.inr (Or.inr (Or.inr (Or.inr h6))))

/-- C5: every record that `RecordData.read` returns has a tag whose low
byte is one of the known type codes (NODATA 0, BITARRAY 1, INT2 2, INT4 3,
REAL8 5, ASCII 6) — any other low byte makes the read fail with
`UnsupportedTagType` — and in particular a well-framed record whose tag has
low byte 4 (REAL4) is rejected with `UnsupportedTagType 4`. -/
theorem C5_tag_type_known_or_rejected (s : List Nat) (r : RecordData)
    (rest : List Nat) (h : recordDataRead s = .ok (r, rest)) :
    (typeOfTag r.tag = 0 ∨ typeOfTag r.tag = 1 ∨ typeOfTag r.tag = 2 ∨
      typeOfTag r.tag = 3 ∨ typeOfTag r.tag = 5 ∨ typeOfTag r.tag = 6) ∧
    recordDataRead [0, 4, 0x0E, 0x04] = .error (.unsupportedTagType 4) := by
  refine ⟨?_, by decide⟩
  unfold recordDataRead at h
  obtain ⟨⟨⟨tag, data⟩, rest2⟩, h1, h⟩ := exceptBind_ok.mp h
  obtain ⟨v, h2, h3⟩ := exceptBind_ok.mp h
  have hr : r = ⟨tag, v⟩ := by
    simp only [Except.ok.injEq, Prod.mk.injEq] at h3
    exact h3.1.symm
  rw [hr]
  exact parseByType_ok_mem h2

/-- Witness for C5: a concrete successful read (the HEADER record of
`emptyLibFile`) whose tag has low byte 2. -/
theorem C5_witness :
    (typeOfTag (RecordData.mk 2 (.ints [5])).tag = 0 ∨
      typeOfTag (RecordData.mk 2 (.ints [5])).tag = 1 ∨
      typeOfTag (RecordData.mk 2 (.ints [5])).tag = 2 ∨
      typeOfTag (RecordData.mk 2 (.ints [5])).tag = 3 ∨
      typeOfTag (RecordData.mk 2 (.ints [5])).tag = 5 ∨
      typeOfTag (RecordData.mk 2 (.ints [5])).tag = 6) ∧
    recordDataRead [0, 4, 0x0E, 0x04] = .error (.unsupportedTagType 4) :=
  C5_tag_type_known_or_rejected [0, 6, 0, 2, 0, 5] ⟨2, .ints [5]⟩ [] (by decide)

/-! ## Claim C9 — ASCII payload round trip -/

/-- C9: for every non-empty byte string of even length, packing after
parsing is the identity: `_parse_ascii` strips at most one trailing NUL and
`_pack_ascii` appends one exactly when the parsed string has odd length. -/
theorem C9_ascii_roundtrip (d : List Nat) (h1 : d ≠ []) (h2 : d.length % 2 = 0) :
    (parseAscii d).bind packAscii = .ok d := by
  have hlen : ¬(d.length = 0) := by simpa using h1
  unfold parseAscii
  rw [if_neg hlen]
  by_cases hz : d.getLast? = some 0
  · rw [if_pos hz]
    show packAscii (.bytes d.dropLast) = .ok d
    have hdl : d.dropLast.length % 2 = 1 := by
      have h3 : 1 ≤ d.length := Nat.one_le_iff_ne_zero.mpr hlen
      simp only [List.length_dropLast]
      omega
    simp only [packAscii, hdl, if_true]
    have hL : d.getLast h1 = 0 := by
      have := List.getLast?_eq_getLast d h1
      rw [this] at hz
      exact (Option.some_inj.mp hz.symm).symm
    have hd : d.dropLast ++ [0] = d := by
      rw [← hL]
      exact List.dropLast_append_getLast h1
    rw [hd]
  · rw [if_neg hz]
    show packAscii (.bytes d) = .ok d
    have h3 : ¬(d.length % 2 = 1) := by omega
    simp only [packAscii, h3, if_false]

/-- Witness for C9 at the concrete even-length payload `b"a\0"`. -/
theorem C9_ascii_roundtrip_witness :
    ([97, 0] : List Nat) ≠ [] ∧ ([97, 0] : List Nat).length % 2 = 0 ∧
    (parseAscii [97, 0]).bind packAscii = .ok [97, 0] :=
  ⟨by decide, by decide, C9_ascii_roundtrip [97, 0] (by decide) (by decide)⟩

/-! ## Claim C10 — optional descriptors on a non-matching tag -/

/-- C10: every optional field descriptor whose `read` is
`SimpleOptionalRecord.read` — including the whole-payload, ACL, STrans and
format variants — returns without advancing the iterator and without
modifying the target instance whenever the current record's tag differs
from the descriptor's tag. -/
theorem C10_optional_read_no_tag_no_effect {α : Type} (T : Nat)
    (setI : α → Int → α) (setW setS : α → PyVal → α) (setM setA : α → Nat → α)
    (setL : α → List (Int × Int × Int) → α) (inst : α) (g : GS)
    (h : g.cur.tag ≠ T) :
    simpleOptionalRead T setI inst g = .ok (inst, g) ∧
    optionalWholeRead T setW inst g = .ok (inst, g) ∧
    aclRead T setL inst g = .ok (inst, g) ∧
    stransRead T setS setM setA inst g = .ok (inst, g) ∧
    formatRead T setI inst g = .ok (inst, g) := by
  unfold simpleOptionalRead optionalWholeRead aclRead stransRead formatRead
  simp [h]

/-- Witness for C10: a MAG descriptor inspecting a current ENDEL record. -/
theorem C10_optional_read_witness :
    simpleOptionalRead tags.MAG (fun (i : Nat) _ => i) 0 ⟨⟨tags.ENDEL, .none⟩, []⟩ =
      .ok (0, ⟨⟨tags.ENDEL, .none⟩, []⟩) ∧
    optionalWholeRead tags.MAG (fun (i : Nat) _ => i) 0 ⟨⟨tags.ENDEL, .none⟩, []⟩ =
      .ok (0, ⟨⟨tags.ENDEL, .none⟩, []⟩) ∧
    aclRead tags.MAG (fun (i : Nat) _ => i) 0 ⟨⟨tags.ENDEL, .none⟩, []⟩ =
      .ok (0, ⟨⟨tags.ENDEL, .none⟩, []⟩) ∧
    stransRead tags.MAG (fun (i : Nat) _ => i) (fun i _ => i) (fun i _ => i) 0
        ⟨⟨tags.ENDEL, .none⟩, []⟩ =
      .ok (0, ⟨⟨tags.ENDEL, .none⟩, []⟩) ∧
    formatRead tags.MAG (fun (i : Nat) _ => i) 0 ⟨⟨tags.ENDEL, .none⟩, []⟩ =
      .ok (0, ⟨⟨tags.ENDEL, .none⟩, []⟩) :=
  C10_optional_read_no_tag_no_effect tags.MAG (fun i _ => i) (fun i _ => i)
    (fun i _ => i) (fun i _ => i) (fun i _ => i) (fun i _ => i) 0
    ⟨⟨tags.ENDEL, .none⟩, []⟩ (by decide)

/-! ## Claim C7 — property list round trip -/

theorem streamOf_gsAppend (l : List RecordData) (g : GS) :
    streamOf (gsAppend l g) = l ++ streamOf g := by
  cases l with
  | nil => simp [gsAppend]
  | cons a r => simp [gsAppend, streamOf]

theorem propsRecs_length (ps : List (Int × PyVal)) :
    (propsRecs ps).length = 2 * ps.length := by
  induction ps with
  | nil => simp [propsRecs]
  | cons p r ih =>
    obtain ⟨a, v⟩ := p
    simp [propsRecs] at ih ⊢
    omega

theorem propsReadFuel_rt : ∀ (fuel : Nat) (props : List (Int × PyVal)) (g : GS)
    (t : RecordData) (rest : List RecordData),
    props.length < fuel → t.tag ≠ tags.PROPATTR →
    streamOf g = propsRecs props ++ t :: rest →
    propertiesReadFuel fuel g = .ok (props, ⟨t, rest⟩) := by
  intro fuel
  induction fuel with
  | zero => intro props g t rest hf; omega
  | succ n ih =>
    intro props g t rest hf ht hs
    cases props with
    | nil =>
      obtain ⟨c, r⟩ := g
      simp only [propsRecs, List.flatMap_nil, List.nil_append, streamOf,
        List.cons.injEq] at hs
      obtain ⟨hc, hr⟩ := hs
      subst hc
      subst hr
      simp [propertiesReadFuel, ht]
    | cons p ps =>
      obtain ⟨a, v⟩ := p
      have hs2 : g.cur :: g.rest =
          ⟨tags.PROPATTR, .ints [a]⟩ :: ⟨tags.PROPVALUE, v⟩ ::
            (propsRecs ps ++ t :: rest) := by
        simpa [propsRecs, streamOf] using hs
      have hc : g.cur = ⟨tags.PROPATTR, .ints [a]⟩ := by injection hs2
      have hr : g.rest = ⟨tags.PROPVALUE, v⟩ :: (propsRecs ps ++ t :: rest) := by
        injection hs2 with h1 h2
      cases hrest : propsRecs ps ++ t :: rest with
      | nil => exact absurd hrest (by simp)
      | cons hd tl =>
        have ihx := ih ps ⟨hd, tl⟩ t rest (by simp at hf; omega) ht
          (by rw [streamOf, ← hrest])
        simp [propertiesReadFuel, hc, hr, checkSize, dataLen, dataFirstInt,
          gnext, checkTag, tags.PROPATTR, tags.PROPVALUE, hrest, ihx,
          Bind.bind, Except.bind]

/-- C7: writing a property list as PROPATTR/PROPVALUE records
(`PropertiesRecord.save`) and reading it back (`PropertiesRecord.read`)
returns exactly the original list — insertion order and duplicate propattr
keys included — for every property list and every terminating record. -/
theorem C7_properties_roundtrip (props : List (Int × PyVal)) (t : RecordData)
    (rest : List RecordData) (ht : t.tag ≠ tags.PROPATTR) :
    propertiesRead (fun (_ : List (Int × PyVal)) ps => ps) []
      (gsAppend (propsRecs props) ⟨t, rest⟩) = .ok (props, ⟨t, rest⟩) := by
  unfold propertiesRead
  have hs := streamOf_gsAppend (propsRecs props) ⟨t, rest⟩
  have hlen : props.length < (gsAppend (propsRecs props) ⟨t, rest⟩).rest.length + 1 := by
    have h1 : (streamOf (gsAppend (propsRecs props) ⟨t, rest⟩)).length =
        (gsAppend (propsRecs props) ⟨t, rest⟩).rest.length + 1 := by
      simp [streamOf]
    rw [hs] at h1
    simp only [List.length_append, List.length_cons, propsRecs_length] at h1
    omega
  rw [propsReadFuel_rt _ props _ t rest hlen ht (by rw [hs]; rfl)]
  simp [Bind.bind, Except.bind]

/-- Witness for C7: a duplicate-keyed, order-sensitive property list
`[(1, b"A"), (1, b"B")]` round-trips in front of an ENDEL record. -/
theorem C7_properties_roundtrip_witness :
    propertiesRead (fun (_ : List (Int × PyVal)) ps => ps) []
      (gsAppend (propsRecs [(1, .bytes [65]), (1, .bytes [66])])
        ⟨⟨tags.ENDEL, .none⟩, []⟩) =
      .ok ([(1, .bytes [65]), (1, .bytes [66])], ⟨⟨tags.ENDEL, .none⟩, []⟩) :=
  C7_properties_roundtrip [(1, .bytes [65]), (1, .bytes [66])]
    ⟨tags.ENDEL, .none⟩ [] (by decide)

/-! ## Claim C6 — Boundary XY validation -/

/-- Counterexample for C6 as stated: reading a Boundary element through the
`gdsii` variant (`ElementBase.load` / `Boundary` of `gdsii/elements.py`)
with an XY record of only 3 points, first ≠ last, does not fail with
BadShape: it succeeds, and it stores the 3 points without dropping any
closing point. -/
theorem C6_counterexample :
    elementLoad ⟨⟨tags.BOUNDARY, .none⟩,
        [⟨tags.LAYER, .ints [1]⟩, ⟨tags.DATATYPE, .ints [0]⟩,
          ⟨tags.XY, .ints [0, 0, 10, 0, 10, 10]⟩, ⟨tags.ENDEL, .none⟩,
          ⟨tags.ENDSTR, .none⟩]⟩ =
      .ok (.boundary ⟨none, none, 1, 0, [(0, 0), (10, 0), (10, 10)], []⟩,
        ⟨⟨tags.ENDSTR, .none⟩, []⟩) := by
  decide

theorem pairPoints_flattenPoints (ps : List (Int × Int)) :
    pairPoints (flattenPoints ps) = ps := by
  induction ps with
  | nil => simp [flattenPoints, pairPoints]
  | cons p r ih =>
    obtain ⟨x, y⟩ := p
    simp [flattenPoints, pairPoints, ih]

theorem flattenPoints_length (ps : List (Int × Int)) :
    (flattenPoints ps).length = 2 * ps.length := by
  induction ps with
  | nil => simp [flattenPoints]
  | cons p r ih =>
    obtain ⟨x, y⟩ := p
    simp [flattenPoints, ih]
    omega

/-- C6 (amended): in the `pygdsii` variant
(`BoundaryElement._read_element`), for every Boundary body
LAYER/DATATYPE/XY/ENDEL, if the XY record holds fewer than 4 points or its
first point differs from its last, reading fails with the BadShape
`FormatError`; otherwise the stored point list is the XY list with the
duplicated closing point dropped.  (The `gdsii` variant performs no such
validation — see the counterexample.) -/
theorem C6_boundary_shape_pygdsii (l d : Int) (ps : List (Int × Int)) :
    pyBoundaryReadElement
      [⟨tags.LAYER, .ints [l]⟩, ⟨tags.DATATYPE, .ints [d]⟩,
        ⟨tags.XY, .ints (flattenPoints ps)⟩, ⟨tags.ENDEL, .none⟩] =
      (if ps = [] then .error (.dataSizeError tags.XY)
      else if ps.length < 4 then
        .error (.formatError "less then 4 points in BOUNDARY")
      else if ps.head? ≠ ps.getLast? then
        .error (.formatError "BOUNDARY should be closed")
      else .ok (⟨l, d, ps.dropLast, []⟩, [])) := by
  by_cases hnil : ps = []
  · subst hnil
    simp [pyBoundaryReadElement, pynext, pyIgnore, checkTag, checkSize, dataLen,
      dataFirstInt, recPoints, flattenPoints, tags.LAYER, tags.DATATYPE, tags.XY,
      tags.ELFLAGS, tags.PLEX, tags.ENDEL, tags.PROPATTR, Bind.bind, Except.bind]
  · have hlen2 : (flattenPoints ps).length = 2 * ps.length := flattenPoints_length ps
    have hne : flattenPoints ps ≠ [] := by
      intro h
      rw [h] at hlen2
      simp at hlen2
      exact hnil hlen2
    have hmod : (flattenPoints ps).length % 2 = 0 := by omega
    by_cases h4 : ps.length < 4
    · simp [pyBoundaryReadElement, pynext, pyIgnore, checkTag, checkSize, dataLen,
        dataFirstInt, recPoints, hne, hmod, pairPoints_flattenPoints, hnil, h4,
        tags.LAYER, tags.DATATYPE, tags.XY, tags.ENDEL, tags.ELFLAGS, tags.PLEX,
        tags.PROPATTR, Bind.bind, Except.bind]
    · by_cases hcl : ps.head? = ps.getLast?
      · simp [pyBoundaryReadElement, pynext, pyIgnore, checkTag, checkSize, dataLen,
          dataFirstInt, recPoints, hne, hmod, pairPoints_flattenPoints, hnil, h4, hcl,
          tags.LAYER, tags.DATATYPE, tags.XY, tags.ENDEL, tags.ELFLAGS, tags.PLEX,
          tags.PROPATTR, pyReadRest, Bind.bind, Except.bind]
      · simp [pyBoundaryReadElement, pynext, pyIgnore, checkTag, checkSize, dataLen,
          dataFirstInt, recPoints, hne, hmod, pairPoints_flattenPoints, hnil, h4, hcl,
          tags.LAYER, tags.DATATYPE, tags.XY, tags.ENDEL, tags.ELFLAGS, tags.PLEX,
          tags.PROPATTR, Bind.bind, Except.bind]

/-! ## Claim C1 — the byte-level round trip

The lemmas below show, descriptor by descriptor, element by element and
structure by structure, that whenever a `gdsii` reader succeeds on a
well-formed record run (`GoodStream`), the corresponding `save` emission
reproduces exactly the records the reader consumed.  They culminate in
`libraryInit_recs` and the claim theorem `C1_round_trip`. -/

theorem gnext_ok {g g2 : GS} (h : gnext g = .ok g2) : g.rest = streamOf g2 := by
  unfold gnext at h
  cases hr : g.rest with
  | nil => rw [hr] at h; simp at h
  | cons r rs =>
    rw [hr] at h
    simp only [Except.ok.injEq] at h
    rw [← h, streamOf]

theorem checkTag_ok {r : RecordData} {t : Nat} {u : Unit}
    (h : checkTag r t = .ok u) : r.tag = t := by
  unfold checkTag at h
  by_cases he : r.tag = t
  · exact he
  · simp [he] at h

theorem checkSize_ok {r : RecordData} {n : Nat} {u : Unit}
    (h : checkSize r n = .ok u) : dataLen r.data = .ok n := by
  unfold checkSize at h
  obtain ⟨l, hl, h2⟩ := exceptBind_ok.mp h
  by_cases he : l = n
  · rw [← he]; exact hl
  · simp [he] at h2

theorem dataFirstInt_ok {v : PyVal} {x : Int} (h : dataFirstInt v = .ok x) :
    ∃ t, v = .ints (x :: t) := by
  unfold dataFirstInt at h
  match v with
  | .ints (a :: t) =>
    simp only [Except.ok.injEq] at h
    exact ⟨t, by rw [h]⟩
  | .ints [] => simp at h
  | .none => simp at h
  | .int _ => simp at h
  | .reals _ => simp at h
  | .bytes _ => simp at h

theorem dataFirstReal_ok {v : PyVal} {x : Nat} (h : dataFirstReal v = .ok x) :
    ∃ t, v = .reals (x :: t) := by
  unfold dataFirstReal at h
  match v with
  | .reals (a :: t) =>
    simp only [Except.ok.injEq] at h
    exact ⟨t, by rw [h]⟩
  | .reals [] => simp at h
  | .none => simp at h
  | .int _ => simp at h
  | .ints _ => simp at h
  | .bytes _ => simp at h

theorem dataTwoInts_ok {v : PyVal} {a b : Int} (h : dataTwoInts v = .ok (a, b)) :
    v = .ints [a, b] := by
  unfold dataTwoInts at h
  match v with
  | .ints [x, y] =>
    simp only [Except.ok.injEq, Prod.mk.injEq] at h
    rw [h.1, h.2]
  | .none => simp at h
  | .int _ => simp at h
  | .ints [] => simp at h
  | .ints [x] => simp at h
  | .ints (x :: y :: z :: t) => simp at h
  | .reals _ => simp at h
  | .bytes _ => simp at h

theorem dataTwoReals_ok {v : PyVal} {a b : Nat} (h : dataTwoReals v = .ok (a, b)) :
    v = .reals [a, b] := by
  unfold dataTwoReals at h
  match v with
  | .reals [x, y] =>
    simp only [Except.ok.injEq, Prod.mk.injEq] at h
    rw [h.1, h.2]
  | .none => simp at h
  | .int _ => simp at h
  | .reals [] => simp at h
  | .reals [x] => simp at h
  | .reals (x :: y :: z :: t) => simp at h
  | .ints _ => simp at h
  | .bytes _ => simp at h

theorem recordData_eta (r : RecordData) : (⟨r.tag, r.data⟩ : RecordData) = r := rfl

theorem simpleRead_rt {α : Type} {T : Nat} {set : α → Int → α} {inst : α}
    {i2 : α} {g g2 : GS} (h : simpleRead T set inst g = .ok (i2, g2)) :
    ∃ v, g.cur = ⟨T, .ints [v]⟩ ∧ i2 = set inst v ∧ g.rest = streamOf g2 := by
  unfold simpleRead at h
  obtain ⟨u1, hct, h⟩ := exceptBind_ok.mp h
  obtain ⟨u2, hcs, h⟩ := exceptBind_ok.mp h
  obtain ⟨v, hv, h⟩ := exceptBind_ok.mp h
  obtain ⟨g3, hg, h⟩ := exceptBind_ok.mp h
  obtain ⟨t, ht⟩ := dataFirstInt_ok hv
  have hlen := checkSize_ok hcs
  rw [ht] at hlen
  simp only [dataLen, Except.ok.injEq, List.length_cons] at hlen
  have htnil : t = [] := by
    cases t with
    | nil => rfl
    | cons a b => simp at hlen
  subst htnil
  refine ⟨v, ?_, ?_, ?_⟩
  · rw [← recordData_eta g.cur, checkTag_ok hct, ht]
  · simp only [Except.ok.injEq, Prod.mk.injEq] at h
    exact h.1.symm
  · simp only [Except.ok.injEq, Prod.mk.injEq] at h
    rw [← h.2]
    exact gnext_ok hg

theorem simpleOptionalRead_rt {α : Type} {T : Nat} {set : α → Int → α} {inst : α}
    {i2 : α} {g g2 : GS} (h : simpleOptionalRead T set inst g = .ok (i2, g2)) :
    (g.cur.tag ≠ T ∧ i2 = inst ∧ g2 = g) ∨
    (∃ v, g.cur = ⟨T, .ints [v]⟩ ∧ i2 = set inst v ∧ g.rest = streamOf g2) := by
  unfold simpleOptionalRead at h
  by_cases he : g.cur.tag = T
  · right
    rw [if_pos he] at h
    obtain ⟨g3, hg, h⟩ := exceptBind_ok.mp h
    obtain ⟨u2, hcs, h⟩ := exceptBind_ok.mp h
    obtain ⟨v, hv, h⟩ := exceptBind_ok.mp h
    obtain ⟨t, ht⟩ := dataFirstInt_ok hv
    have hlen := checkSize_ok hcs
    rw [ht] at hlen
    simp only [dataLen, Except.ok.injEq, List.length_cons] at hlen
    have htnil : t = [] := by
      cases t with
      | nil => rfl
      | cons a b => simp at hlen
    subst htnil
    simp only [Except.ok.injEq, Prod.mk.injEq] at h
    refine ⟨v, ?_, h.1.symm, ?_⟩
    · rw [← recordData_eta g.cur, he, ht]
    · rw [← h.2]
      exact gnext_ok hg
  · left
    rw [if_neg he] at h
    simp only [Except.ok.injEq, Prod.mk.injEq] at h
    exact ⟨he, h.1.symm, h.2.symm⟩

theorem simpleOptionalReadReal_rt {α : Type} {T : Nat} {set : α → Nat → α}
    {inst : α} {i2 : α} {g g2 : GS}
    (h : simpleOptionalReadReal T set inst g = .ok (i2, g2)) :
    (g.cur.tag ≠ T ∧ i2 = inst ∧ g2 = g) ∨
    (∃ v, g.cur = ⟨T, .reals [v]⟩ ∧ i2 = set inst v ∧ g.rest = streamOf g2) := by
  unfold simpleOptionalReadReal at h
  by_cases he : g.cur.tag = T
  · right
    rw [if_pos he] at h
    obtain ⟨g3, hg, h⟩ := exceptBind_ok.mp h
    obtain ⟨u2, hcs, h⟩ := exceptBind_ok.mp h
    obtain ⟨v, hv, h⟩ := exceptBind_ok.mp h
    obtain ⟨t, ht⟩ := dataFirstReal_ok hv
    have hlen := checkSize_ok hcs
    rw [ht] at hlen
    simp only [dataLen, Except.ok.injEq, List.length_cons] at hlen
    have htnil : t = [] := by
      cases t with
      | nil => rfl
      | cons a b => simp at hlen
    subst htnil
    simp only [Except.ok.injEq, Prod.mk.injEq] at h
    refine ⟨v, ?_, h.1.symm, ?_⟩
    · rw [← recordData_eta g.cur, he, ht]
    · rw [← h.2]
      exact gnext_ok hg
  · left
    rw [if_neg he] at h
    simp only [Except.ok.injEq, Prod.mk.injEq] at h
    exact ⟨he, h.1.symm, h.2.symm⟩

theorem optionalWholeRead_rt {α : Type} {T : Nat} {set : α → PyVal → α}
    {inst : α} {i2 : α} {g g2 : GS}
    (h : optionalWholeRead T set inst g = .ok (i2, g2)) :
    (g.cur.tag ≠ T ∧ i2 = inst ∧ g2 = g) ∨
    (g.cur.tag = T ∧ i2 = set inst g.cur.data ∧ g.rest = streamOf g2) := by
  unfold optionalWholeRead at h
  by_cases he : g.cur.tag = T
  · right
    rw [if_pos he] at h
    obtain ⟨g3, hg, h⟩ := exceptBind_ok.mp h
    simp only [Except.ok.injEq, Prod.mk.injEq] at h
    refine ⟨he, h.1.symm, ?_⟩
    rw [← h.2]
    exact gnext_ok hg
  · left
    rw [if_neg he] at h
    simp only [Except.ok.injEq, Prod.mk.injEq] at h
    exact ⟨he, h.1.symm, h.2.symm⟩

theorem stringRead_rt {α : Type} {T : Nat} {set : α → PyVal → α} {inst : α}
    {i2 : α} {g g2 : GS} (h : stringRead T set inst g = .ok (i2, g2)) :
    g.cur.tag = T ∧ i2 = set inst g.cur.data ∧ g.rest = streamOf g2 := by
  unfold stringRead at h
  obtain ⟨u1, hct, h⟩ := exceptBind_ok.mp h
  obtain ⟨g3, hg, h⟩ := exceptBind_ok.mp h
  simp only [Except.ok.injEq, Prod.mk.injEq] at h
  refine ⟨checkTag_ok hct, h.1.symm, ?_⟩
  rw [← h.2]
  exact gnext_ok hg

theorem recPoints_ok {r : RecordData} {ps : List (Int × Int)}
    (h : recPoints r = .ok ps) :
    ∃ xs, r.data = .ints xs ∧ xs ≠ [] ∧ xs.length % 2 = 0 ∧ ps = pairPoints xs := by
  unfold recPoints at h
  match hv : r.data with
  | .ints vs =>
    rw [hv] at h
    simp only [] at h
    split_ifs at h with hc
    push_neg at hc
    simp only [Except.ok.injEq] at h
    refine ⟨vs, rfl, ?_, ?_, h.symm⟩
    · intro hx
      rw [hx] at hc
      simp at hc
    · have := hc.2
      omega
  | .none => rw [hv] at h; simp at h
  | .int _ => rw [hv] at h; simp at h
  | .reals _ => rw [hv] at h; simp at h
  | .bytes _ => rw [hv] at h; simp at h

theorem flattenPoints_pairPoints : ∀ (xs : List Int), xs.length % 2 = 0 →
    flattenPoints (pairPoints xs) = xs := by
  intro xs
  induction xs using pairPoints.induct with
  | case1 x y rest =>
    intro h
    simp only [List.length_cons] at h
    simp only [pairPoints, flattenPoints]
    rename_i ih
    rw [ih (by omega)]
  | case2 l h1 =>
    intro h
    match l, h1 with
    | [], _ => simp [pairPoints, flattenPoints]
    | [x], h1 => simp at h
    | x :: y :: r, h1 => exact absurd rfl (h1 x y r)

theorem xyRead_rt {α : Type} {T : Nat} {set : α → List (Int × Int) → α}
    {inst : α} {i2 : α} {g g2 : GS} (h : xyRead T set inst g = .ok (i2, g2)) :
    ∃ xs, g.cur = ⟨T, .ints xs⟩ ∧ xs ≠ [] ∧ xs.length % 2 = 0 ∧
      i2 = set inst (pairPoints xs) ∧ g.rest = streamOf g2 := by
  unfold xyRead at h
  obtain ⟨u1, hct, h⟩ := exceptBind_ok.mp h
  obtain ⟨ps, hps, h⟩ := exceptBind_ok.mp h
  obtain ⟨g3, hg, h⟩ := exceptBind_ok.mp h
  obtain ⟨xs, hd, hne, hmod, hpair⟩ := recPoints_ok hps
  simp only [Except.ok.injEq, Prod.mk.injEq] at h
  refine ⟨xs, ?_, hne, hmod, ?_, ?_⟩
  · rw [← recordData_eta g.cur, checkTag_ok hct, hd]
  · rw [← h.1, hpair]
  · rw [← h.2]
    exact gnext_ok hg

theorem colRowRead_rt {α : Type} {set : α → Int → Int → α} {inst : α}
    {i2 : α} {g g2 : GS} (h : colRowRead set inst g = .ok (i2, g2)) :
    ∃ c r, g.cur = ⟨tags.COLROW, .ints [c, r]⟩ ∧ i2 = set inst c r ∧
      g.rest = streamOf g2 := by
  unfold colRowRead at h
  obtain ⟨u1, hct, h⟩ := exceptBind_ok.mp h
  obtain ⟨u2, hcs, h⟩ := exceptBind_ok.mp h
  obtain ⟨cr, hcr, h⟩ := exceptBind_ok.mp h
  obtain ⟨c, r⟩ := cr
  obtain ⟨g3, hg, h⟩ := exceptBind_ok.mp h
  simp only [Except.ok.injEq, Prod.mk.injEq] at h
  refine ⟨c, r, ?_, h.1.symm, ?_⟩
  · rw [← recordData_eta g.cur, checkTag_ok hct, dataTwoInts_ok hcr]
  · rw [← h.2]
    exact gnext_ok hg

theorem stransRead_rt {α : Type} {T : Nat} {setS : α → PyVal → α}
    {setM setA : α → Nat → α} {inst : α} {i2 : α} {g g2 : GS}
    (h : stransRead T setS setM setA inst g = .ok (i2, g2)) :
    (g.cur.tag ≠ T ∧ i2 = inst ∧ g2 = g) ∨
    (∃ (mo ao : Option Nat), g.cur.tag = T ∧
      i2 = optApply setA ao (optApply setM mo (setS inst g.cur.data)) ∧
      (optRealRecs tags.MAG mo ++ optRealRecs tags.ANGLE ao) ++ streamOf g2 =
        g.rest) := by
  unfold stransRead at h
  by_cases he : g.cur.tag = T
  · right
    rw [if_pos he] at h
    obtain ⟨gA, hgA, h⟩ := exceptBind_ok.mp h
    obtain ⟨⟨iM, gB⟩, hM, h⟩ := exceptBind_ok.mp h
    obtain ⟨⟨iA, gC⟩, hA, h⟩ := exceptBind_ok.mp h
    simp only [Except.ok.injEq, Prod.mk.injEq] at h
    have hrest := gnext_ok hgA
    rcases simpleOptionalReadReal_rt hM with ⟨hneM, hiM, hgBA⟩ | ⟨m, hcm, him, hgm⟩
    · rcases simpleOptionalReadReal_rt hA with ⟨hneA, hiA2, hgCB⟩ | ⟨a, hca, hia, hga⟩
      · refine ⟨none, none, he, ?_, ?_⟩
        · simp [optApply, ← h.1, hiA2, hiM]
        · simp only [optRealRecs, List.nil_append]
          rw [← h.2, hgCB, hgBA, hrest]
      · refine ⟨none, some a, he, ?_, ?_⟩
        · simp [optApply, ← h.1, hia, hiM]
        · simp only [optRealRecs, List.nil_append, List.cons_append]
          rw [← h.2, ← hga, hgBA, hrest]
          rw [hgBA] at hca
          simp only [streamOf]
          rw [hca]
    · rcases simpleOptionalReadReal_rt hA with ⟨hneA, hiA2, hgCB⟩ | ⟨a, hca, hia, hga⟩
      · refine ⟨some m, none, he, ?_, ?_⟩
        · simp [optApply, ← h.1, hiA2, him]
        · simp only [optRealRecs, List.append_nil, List.cons_append, List.nil_append]
          rw [← h.2, hgCB, ← hgm, hrest]
          simp only [streamOf]
          rw [hcm]
      · refine ⟨some m, some a, he, ?_, ?_⟩
        · simp [optApply, ← h.1, hia, him]
        · simp only [optRealRecs, List.cons_append, List.nil_append]
          rw [← h.2, ← hga, hrest]
          simp only [streamOf]
          rw [hcm, hgm]
          simp only [streamOf]
          rw [hca]
  · left
    rw [if_neg he] at h
    simp only [Except.ok.injEq, Prod.mk.injEq] at h
    exact ⟨he, h.1.symm, h.2.symm⟩

theorem propertiesReadFuel_consumed : ∀ (fuel : Nat) (g : GS)
    (ps : List (Int × PyVal)) (g2 : GS),
    propertiesReadFuel fuel g = .ok (ps, g2) →
    propsRecs ps ++ streamOf g2 = streamOf g := by
  intro fuel
  induction fuel with
  | zero => intro g ps g2 h; simp [propertiesReadFuel] at h
  | succ n ih =>
    intro g ps g2 h
    unfold propertiesReadFuel at h
    by_cases he : g.cur.tag = tags.PROPATTR
    · rw [if_pos he] at h
      obtain ⟨u1, hcs, h⟩ := exceptBind_ok.mp h
      obtain ⟨a, ha, h⟩ := exceptBind_ok.mp h
      obtain ⟨gB, hgB, h⟩ := exceptBind_ok.mp h
      obtain ⟨u2, hct, h⟩ := exceptBind_ok.mp h
      obtain ⟨gC, hgC, h⟩ := exceptBind_ok.mp h
      obtain ⟨⟨ps1, g3⟩, hrec, h⟩ := exceptBind_ok.mp h
      simp only [Except.ok.injEq, Prod.mk.injEq] at h
      obtain ⟨t, ht⟩ := dataFirstInt_ok ha
      have hlen := checkSize_ok hcs
      rw [ht] at hlen
      simp only [dataLen, Except.ok.injEq, List.length_cons] at hlen
      have htnil : t = [] := by
        cases t with
        | nil => rfl
        | cons x y => simp at hlen
      subst htnil
      have hcur : g.cur = ⟨tags.PROPATTR, .ints [a]⟩ := by
        rw [← recordData_eta g.cur, he, ht]
      have hcurB : gB.cur = ⟨tags.PROPVALUE, gB.cur.data⟩ := by
        rw [← recordData_eta gB.cur, checkTag_ok hct]
      rw [← h.1, ← h.2]
      have hpr : propsRecs ((a, gB.cur.data) :: ps1) =
          ⟨tags.PROPATTR, .ints [a]⟩ :: ⟨tags.PROPVALUE, gB.cur.data⟩ ::
            propsRecs ps1 := by
        simp [propsRecs]
      rw [hpr]
      have hih := ih gC ps1 g3 hrec
      simp only [streamOf, List.cons_append] at hih ⊢
      rw [hcur]
      simp only [List.cons.injEq, true_and]
      rw [gnext_ok hgB]
      simp only [streamOf, List.cons.injEq]
      constructor
      · rw [← hcurB]
      · rw [gnext_ok hgC]
        simp only [streamOf]
        exact hih
    · rw [if_neg he] at h
      simp only [Except.ok.injEq, Prod.mk.injEq] at h
      rw [← h.1, ← h.2]
      simp [propsRecs]

theorem propertiesRead_rt {α : Type} {set : α → List (Int × PyVal) → α}
    {inst : α} {i2 : α} {g g2 : GS}
    (h : propertiesRead set inst g = .ok (i2, g2)) :
    ∃ ps, i2 = set inst ps ∧ propsRecs ps ++ streamOf g2 = streamOf g := by
  unfold propertiesRead at h
  obtain ⟨⟨ps, g3⟩, hp, h⟩ := exceptBind_ok.mp h
  simp only [Except.ok.injEq, Prod.mk.injEq] at h
  refine ⟨ps, h.1.symm, ?_⟩
  rw [← h.2]
  exact propertiesReadFuel_consumed _ g ps g3 hp

theorem mkDatetime_ok {y mo d h mi s : Int} {dt : PyDatetime}
    (hk : mkDatetime y mo d h mi s = .ok dt) : dt = ⟨y, mo, d, h, mi, s⟩ := by
  unfold mkDatetime at hk
  split_ifs at hk
  simp only [Except.ok.injEq] at hk
  exact hk.symm

theorem recTimes_rt {r : RecordData} {mt a2 : PyDatetime}
    (h : recTimes r = .ok (mt, a2)) : r.data = .ints (timesList mt a2) := by
  unfold recTimes at h
  match hv : r.data with
  | .ints vs =>
    rw [hv] at h
    simp only [] at h
    split_ifs at h with hlen
    obtain ⟨m1, hm1, h⟩ := exceptBind_ok.mp h
    obtain ⟨a1, ha1, h⟩ := exceptBind_ok.mp h
    simp only [Except.ok.injEq, Prod.mk.injEq] at h
    obtain ⟨hml, hal⟩ := h
    rcases vs with _ | ⟨a0, _ | ⟨b1, _ | ⟨b2, _ | ⟨b3, _ | ⟨b4, _ | ⟨b5, _ |
      ⟨b6, _ | ⟨b7, _ | ⟨b8, _ | ⟨b9, _ | ⟨b10, _ | ⟨b11, rest⟩⟩⟩⟩⟩⟩⟩⟩⟩⟩⟩⟩ <;>
      simp at hlen
    cases rest with
    | cons x y => simp at hlen
    | nil =>
      simp only [List.getD, List.getElem?_cons_zero, List.getElem?_cons_succ,
        Option.getD_some] at hm1 ha1
      have e1 := mkDatetime_ok hm1
      have e2 := mkDatetime_ok ha1
      rw [← hml, ← hal, e1, e2]
      simp [timesList]
  | .none => rw [hv] at h; simp at h
  | .int _ => rw [hv] at h; simp at h
  | .reals _ => rw [hv] at h; simp at h
  | .bytes _ => rw [hv] at h; simp at h

theorem memRest {g gN : GS} {x : RecordData} (e : g.rest = streamOf gN)
    (hx : x ∈ streamOf gN) : x ∈ streamOf g := by
  have h2 : x ∈ g.rest := by rw [e]; exact hx
  show x ∈ g.cur :: g.rest
  exact List.mem_cons_of_mem _ h2

theorem memSeg {l pre : List RecordData} {gN : GS} {x : RecordData}
    (e : pre ++ streamOf gN = l) (hx : x ∈ streamOf gN) : x ∈ l := by
  rw [← e]
  exact List.mem_append_right pre hx

theorem memConsSeg {x : RecordData} {l : List RecordData} {gN : GS}
    {y : RecordData} (e : x :: streamOf gN = l) (hy : y ∈ streamOf gN) :
    y ∈ l := by
  rw [← e]
  exact List.mem_cons_of_mem _ hy

theorem streamOf_cons (g : GS) : streamOf g = g.cur :: g.rest := rfl

theorem simpleRead_seg {α : Type} {T : Nat} {set : α → Int → α} {inst : α}
    {i2 : α} {g g2 : GS} (h : simpleRead T set inst g = .ok (i2, g2)) :
    ∃ v, i2 = set inst v ∧
      (⟨T, .ints [v]⟩ : RecordData) :: streamOf g2 = streamOf g := by
  obtain ⟨v, hc, hi, e⟩ := simpleRead_rt h
  refine ⟨v, hi, ?_⟩
  rw [streamOf_cons g, hc, e]

theorem simpleOptionalRead_seg {α : Type} {T : Nat} {set : α → Int → α}
    {inst : α} {i2 : α} {g g2 : GS}
    (h : simpleOptionalRead T set inst g = .ok (i2, g2)) :
    ∃ o, i2 = optApply set o inst ∧
      optScalarRecs T o ++ streamOf g2 = streamOf g := by
  rcases simpleOptionalRead_rt h with ⟨hne, hi, hgg⟩ | ⟨v, hc, hi, e⟩
  · exact ⟨none, by simp [optApply, hi], by simp [optScalarRecs, hgg]⟩
  · refine ⟨some v, by simp [optApply, hi], ?_⟩
    simp only [optScalarRecs, List.cons_append, List.nil_append]
    rw [streamOf_cons g, hc, e]

theorem optionalWholeRead_seg {α : Type} {T : Nat} {set : α → PyVal → α}
    {inst : α} {i2 : α} {g g2 : GS}
    (h : optionalWholeRead T set inst g = .ok (i2, g2)) :
    ∃ o, i2 = optApply set o inst ∧
      optWholeRecs T o ++ streamOf g2 = streamOf g := by
  rcases optionalWholeRead_rt h with ⟨hne, hi, hgg⟩ | ⟨ht, hi, e⟩
  · exact ⟨none, by simp [optApply, hi], by simp [optWholeRecs, hgg]⟩
  · refine ⟨some g.cur.data, by simp [optApply, hi], ?_⟩
    simp only [optWholeRecs, List.cons_append, List.nil_append]
    rw [streamOf_cons g, e]
    have h0 := (recordData_eta g.cur).symm
    rw [ht] at h0
    conv_rhs => rw [h0]

theorem stringRead_seg {α : Type} {T : Nat} {set : α → PyVal → α} {inst : α}
    {i2 : α} {g g2 : GS} (h : stringRead T set inst g = .ok (i2, g2)) :
    ∃ d, i2 = set inst d ∧
      (⟨T, d⟩ : RecordData) :: streamOf g2 = streamOf g := by
  obtain ⟨ht, hi, e⟩ := stringRead_rt h
  refine ⟨g.cur.data, hi, ?_⟩
  rw [streamOf_cons g, e]
  have h0 := (recordData_eta g.cur).symm
  rw [ht] at h0
  conv_rhs => rw [h0]

theorem xyRead_seg {α : Type} {T : Nat} {set : α → List (Int × Int) → α}
    {inst : α} {i2 : α} {g g2 : GS} (h : xyRead T set inst g = .ok (i2, g2)) :
    ∃ ps, i2 = set inst ps ∧
      (⟨T, .ints (flattenPoints ps)⟩ : RecordData) :: streamOf g2 = streamOf g := by
  obtain ⟨xs, hc, hne, hmod, hi, e⟩ := xyRead_rt h
  refine ⟨pairPoints xs, hi, ?_⟩
  rw [flattenPoints_pairPoints xs hmod, streamOf_cons g, hc, e]

theorem colRowRead_seg {α : Type} {set : α → Int → Int → α} {inst : α}
    {i2 : α} {g g2 : GS} (h : colRowRead set inst g = .ok (i2, g2)) :
    ∃ c r, i2 = set inst c r ∧
      (⟨tags.COLROW, .ints [c, r]⟩ : RecordData) :: streamOf g2 = streamOf g := by
  obtain ⟨c, r, hc, hi, e⟩ := colRowRead_rt h
  refine ⟨c, r, hi, ?_⟩
  rw [streamOf_cons g, hc, e]

theorem propertiesRead_seg {α : Type} {set : α → List (Int × PyVal) → α}
    {inst : α} {i2 : α} {g g2 : GS}
    (h : propertiesRead set inst g = .ok (i2, g2)) :
    ∃ ps, i2 = set inst ps ∧ propsRecs ps ++ streamOf g2 = streamOf g :=
  propertiesRead_rt h

theorem stransRead_seg {α : Type} {setS : α → PyVal → α} {setM setA : α → Nat → α}
    {inst : α} {i2 : α} {g g2 : GS}
    (h : stransRead tags.STRANS setS setM setA inst g = .ok (i2, g2)) :
    ∃ so mo ao, i2 = stransApply setS setM setA so mo ao inst ∧
      (so = none → mo = none ∧ ao = none) ∧
      stransRecs so mo ao ++ streamOf g2 = streamOf g := by
  rcases stransRead_rt h with ⟨hne, hi, hgg⟩ | ⟨mo, ao, ht, hi, e⟩
  · exact ⟨none, none, none, by simp [stransApply, hi], fun _ => ⟨rfl, rfl⟩,
      by simp [stransRecs, hgg]⟩
  · refine ⟨some g.cur.data, mo, ao, by simp [stransApply, hi],
      fun hx => by exact absurd hx (by simp), ?_⟩
    simp only [stransRecs]
    rw [streamOf_cons g, ← e]
    have h0 := (recordData_eta g.cur).symm
    rw [ht] at h0
    conv_rhs => rw [h0]
    simp [List.append_assoc]

theorem pathRead_recs {g g2 : GS} {p : GPath}
    (hcur : g.cur = ⟨tags.PATH, PyVal.none⟩)
    (hwf : GoodStream (streamOf g))
    (h : pathRead g = .ok (p, g2)) :
    pathRecs p ++ streamOf g2 = streamOf g := by
  unfold pathRead at h
  obtain ⟨gA, hgA, h⟩ := exceptBind_ok.mp h
  obtain ⟨⟨i1, gB⟩, hEl, h⟩ := exceptBind_ok.mp h
  obtain ⟨⟨i2x, gC⟩, hPl, h⟩ := exceptBind_ok.mp h
  obtain ⟨⟨i3, gD⟩, hLa, h⟩ := exceptBind_ok.mp h
  obtain ⟨⟨i4, gE⟩, hDt, h⟩ := exceptBind_ok.mp h
  obtain ⟨⟨i5, gF⟩, hPt, h⟩ := exceptBind_ok.mp h
  obtain ⟨⟨i6, gG⟩, hWd, h⟩ := exceptBind_ok.mp h
  obtain ⟨⟨i7, gH⟩, hBe, h⟩ := exceptBind_ok.mp h
  obtain ⟨⟨i8, gI⟩, hEe, h⟩ := exceptBind_ok.mp h
  obtain ⟨⟨i9, gJ⟩, hXy, h⟩ := exceptBind_ok.mp h
  obtain ⟨⟨i10, gK⟩, hPr, h⟩ := exceptBind_ok.mp h
  obtain ⟨u, hEn, h⟩ := exceptBind_ok.mp h
  obtain ⟨gL, hgL, h⟩ := exceptBind_ok.mp h
  simp only [Except.ok.injEq, Prod.mk.injEq] at h
  obtain ⟨hb, hg2⟩ := h
  have e0 : streamOf g = ⟨tags.PATH, PyVal.none⟩ :: streamOf gA := by
    rw [streamOf_cons g, hcur, gnext_ok hgA]
  obtain ⟨o1, hi1, s1⟩ := optionalWholeRead_seg hEl
  obtain ⟨o2, hi2, s2⟩ := simpleOptionalRead_seg hPl
  obtain ⟨v3, hi3, s3⟩ := simpleRead_seg hLa
  obtain ⟨v4, hi4, s4⟩ := simpleRead_seg hDt
  obtain ⟨o5, hi5, s5⟩ := simpleOptionalRead_seg hPt
  obtain ⟨o6, hi6, s6⟩ := simpleOptionalRead_seg hWd
  obtain ⟨o7, hi7, s7⟩ := simpleOptionalRead_seg hBe
  obtain ⟨o8, hi8, s8⟩ := simpleOptionalRead_seg hEe
  obtain ⟨ps, hi9, s9⟩ := xyRead_seg hXy
  obtain ⟨prs, hi10, s10⟩ := propertiesRead_seg hPr
  have hEtag := checkTag_ok hEn
  have hmemK : gK.cur ∈ streamOf g := by
    have m0 : gK.cur ∈ streamOf gK := List.mem_cons_self _ _
    have m1 := memSeg s10 m0
    have m2 := memConsSeg s9 m1
    have m3 := memSeg s8 m2
    have m4 := memSeg s7 m3
    have m5 := memSeg s6 m4
    have m6 := memSeg s5 m5
    have m7 := memConsSeg s4 m6
    have m8 := memConsSeg s3 m7
    have m9 := memSeg s2 m8
    have m10 := memSeg s1 m9
    rw [e0]
    exact List.mem_cons_of_mem _ m10
  have hKend : gK.cur = ⟨tags.ENDEL, PyVal.none⟩ := by
    have hd := (hwf gK.cur hmemK).1
    rw [← recordData_eta gK.cur, hEtag, hd]
    rw [hEtag]
    decide
  have e7x : streamOf gK = ⟨tags.ENDEL, PyVal.none⟩ :: streamOf gL := by
    rw [← hKend, streamOf_cons gK, gnext_ok hgL]
  have hp : p = ⟨o1, o2, v3, v4, o5, o6, o7, o8, ps, prs⟩ := by
    rw [← hb, hi10, hi9, hi8, hi7, hi6, hi5, hi4, hi3, hi2, hi1]
    rcases o1 <;> rcases o2 <;> rcases o5 <;> rcases o6 <;> rcases o7 <;>
      rcases o8 <;> simp [optApply]
  rw [hp, e0, ← s1, ← s2, ← s3, ← s4, ← s5, ← s6, ← s7, ← s8, ← s9, ← s10,
    ← hg2, e7x]
  simp [pathRecs, List.append_assoc]

theorem boundaryRead_recs {g g2 : GS} {b : GBoundary}
    (hcur : g.cur = ⟨tags.BOUNDARY, PyVal.none⟩)
    (hwf : GoodStream (streamOf g))
    (h : boundaryRead g = .ok (b, g2)) :
    boundaryRecs b ++ streamOf g2 = streamOf g := by
  unfold boundaryRead at h
  obtain ⟨gA, hgA, h⟩ := exceptBind_ok.mp h
  obtain ⟨⟨i1, gB⟩, hEl, h⟩ := exceptBind_ok.mp h
  obtain ⟨⟨i2x, gC⟩, hPl, h⟩ := exceptBind_ok.mp h
  obtain ⟨⟨i3, gD⟩, hLa, h⟩ := exceptBind_ok.mp h
  obtain ⟨⟨i4, gE⟩, hDt, h⟩ := exceptBind_ok.mp h
  obtain ⟨⟨i5, gF⟩, hXy, h⟩ := exceptBind_ok.mp h
  obtain ⟨⟨i6, gG⟩, hPr, h⟩ := exceptBind_ok.mp h
  obtain ⟨u, hEn, h⟩ := exceptBind_ok.mp h
  obtain ⟨gH, hgH, h⟩ := exceptBind_ok.mp h
  simp only [Except.ok.injEq, Prod.mk.injEq] at h
  obtain ⟨hb, hg2⟩ := h
  have e0 : streamOf g = ⟨tags.BOUNDARY, PyVal.none⟩ :: streamOf gA := by
    rw [streamOf_cons g, hcur, gnext_ok hgA]
  obtain ⟨o1, hi1, s1⟩ := optionalWholeRead_seg hEl
  obtain ⟨o2, hi2, s2⟩ := simpleOptionalRead_seg hPl
  obtain ⟨v3, hi3, s3⟩ := simpleRead_seg hLa
  obtain ⟨v4, hi4, s4⟩ := simpleRead_seg hDt
  obtain ⟨ps, hi5, s5⟩ := xyRead_seg hXy
  obtain ⟨prs, hi6, s6⟩ := propertiesRead_seg hPr
  have hEtag := checkTag_ok hEn
  have hmemG : gG.cur ∈ streamOf g := by
    have m0 : gG.cur ∈ streamOf gG := List.mem_cons_self _ _
    have m1 := memSeg s6 m0
    have m2 := memConsSeg s5 m1
    have m3 := memConsSeg s4 m2
    have m4 := memConsSeg s3 m3
    have m5 := memSeg s2 m4
    have m6 := memSeg s1 m5
    rw [e0]
    exact List.mem_cons_of_mem _ m6
  have hGend : gG.cur = ⟨tags.ENDEL, PyVal.none⟩ := by
    have hd := (hwf gG.cur hmemG).1
    rw [← recordData_eta gG.cur, hEtag, hd]
    rw [hEtag]
    decide
  have e7x : streamOf gG = ⟨tags.ENDEL, PyVal.none⟩ :: streamOf gH := by
    rw [← hGend, streamOf_cons gG, gnext_ok hgH]
  have hp : b = ⟨o1, o2, v3, v4, ps, prs⟩ := by
    rw [← hb, hi6, hi5, hi4, hi3, hi2, hi1]
    rcases o1 <;> rcases o2 <;> simp [optApply]
  rw [hp, e0, ← s1, ← s2, ← s3, ← s4, ← s5, ← s6, ← hg2, e7x]
  simp [boundaryRecs, List.append_assoc]

theorem srefRead_recs {g g2 : GS} {b : GSRef}
    (hcur : g.cur = ⟨tags.SREF, PyVal.none⟩)
    (hwf : GoodStream (streamOf g))
    (h : srefRead g = .ok (b, g2)) :
    srefRecs b ++ streamOf g2 = streamOf g := by
  unfold srefRead at h
  obtain ⟨gA, hgA, h⟩ := exceptBind_ok.mp h
  obtain ⟨⟨i1, gB⟩, hEl, h⟩ := exceptBind_ok.mp h
  obtain ⟨⟨i2x, gC⟩, hPl, h⟩ := exceptBind_ok.mp h
  obtain ⟨⟨i3, gD⟩, hSn, h⟩ := exceptBind_ok.mp h
  obtain ⟨⟨i4, gE⟩, hSt, h⟩ := exceptBind_ok.mp h
  obtain ⟨⟨i5, gF⟩, hXy, h⟩ := exceptBind_ok.mp h
  obtain ⟨⟨i6, gG⟩, hPr, h⟩ := exceptBind_ok.mp h
  obtain ⟨u, hEn, h⟩ := exceptBind_ok.mp h
  obtain ⟨gH, hgH, h⟩ := exceptBind_ok.mp h
  simp only [Except.ok.injEq, Prod.mk.injEq] at h
  obtain ⟨hb, hg2⟩ := h
  have e0 : streamOf g = ⟨tags.SREF, PyVal.none⟩ :: streamOf gA := by
    rw [streamOf_cons g, hcur, gnext_ok hgA]
  obtain ⟨o1, hi1, s1⟩ := optionalWholeRead_seg hEl
  obtain ⟨o2, hi2, s2⟩ := simpleOptionalRead_seg hPl
  obtain ⟨d3, hi3, s3⟩ := stringRead_seg hSn
  obtain ⟨so, mo, ao, hi4, hso, s4⟩ := stransRead_seg hSt
  obtain ⟨ps, hi5, s5⟩ := xyRead_seg hXy
  obtain ⟨prs, hi6, s6⟩ := propertiesRead_seg hPr
  have hEtag := checkTag_ok hEn
  have hmemG : gG.cur ∈ streamOf g := by
    have m0 : gG.cur ∈ streamOf gG := List.mem_cons_self _ _
    have m1 := memSeg s6 m0
    have m2 := memConsSeg s5 m1
    have m3 := memSeg s4 m2
    have m4 := memConsSeg s3 m3
    have m5 := memSeg s2 m4
    have m6 := memSeg s1 m5
    rw [e0]
    exact List.mem_cons_of_mem _ m6
  have hGend : gG.cur = ⟨tags.ENDEL, PyVal.none⟩ := by
    have hd := (hwf gG.cur hmemG).1
    rw [← recordData_eta gG.cur, hEtag, hd]
    rw [hEtag]
    decide
  have e7x : streamOf gG = ⟨tags.ENDEL, PyVal.none⟩ :: streamOf gH := by
    rw [← hGend, streamOf_cons gG, gnext_ok hgH]
  have hp : b = ⟨o1, o2, d3, so, mo, ao, ps, prs⟩ := by
    rw [← hb, hi6, hi5, hi4, hi3, hi2, hi1]
    rcases so with _ | d
    · obtain ⟨rfl, rfl⟩ := hso rfl
      rcases o1 <;> rcases o2 <;> simp [optApply, stransApply]
    · rcases o1 <;> rcases o2 <;> rcases mo <;> rcases ao <;>
        simp [optApply, stransApply]
  rw [hp, e0, ← s1, ← s2, ← s3, ← s4, ← s5, ← s6, ← hg2, e7x]
  simp [srefRecs, List.append_assoc]

theorem arefRead_recs {g g2 : GS} {b : GARef}
    (hcur : g.cur = ⟨tags.AREF, PyVal.none⟩)
    (hwf : GoodStream (streamOf g))
    (h : arefRead g = .ok (b, g2)) :
    arefRecs b ++ streamOf g2 = streamOf g := by
  unfold arefRead at h
  obtain ⟨gA, hgA, h⟩ := exceptBind_ok.mp h
  obtain ⟨⟨i1, gB⟩, hEl, h⟩ := exceptBind_ok.mp h
  obtain ⟨⟨i2x, gC⟩, hPl, h⟩ := exceptBind_ok.mp h
  obtain ⟨⟨i3, gD⟩, hSn, h⟩ := exceptBind_ok.mp h
  obtain ⟨⟨i4, gE⟩, hSt, h⟩ := exceptBind_ok.mp h
  obtain ⟨⟨i5, gF⟩, hCr, h⟩ := exceptBind_ok.mp h
  obtain ⟨⟨i6, gG⟩, hXy, h⟩ := exceptBind_ok.mp h
  obtain ⟨⟨i7, gH⟩, hPr, h⟩ := exceptBind_ok.mp h
  obtain ⟨u, hEn, h⟩ := exceptBind_ok.mp h
  obtain ⟨gI, hgI, h⟩ := exceptBind_ok.mp h
  simp only [Except.ok.injEq, Prod.mk.injEq] at h
  obtain ⟨hb, hg2⟩ := h
  have e0 : streamOf g = ⟨tags.AREF, PyVal.none⟩ :: streamOf gA := by
    rw [streamOf_cons g, hcur, gnext_ok hgA]
  obtain ⟨o1, hi1, s1⟩ := optionalWholeRead_seg hEl
  obtain ⟨o2, hi2, s2⟩ := simpleOptionalRead_seg hPl
  obtain ⟨d3, hi3, s3⟩ := stringRead_seg hSn
  obtain ⟨so, mo, ao, hi4, hso, s4⟩ := stransRead_seg hSt
  obtain ⟨c5, r5, hi5, s5⟩ := colRowRead_seg hCr
  obtain ⟨ps, hi6, s6⟩ := xyRead_seg hXy
  obtain ⟨prs, hi7, s7⟩ := propertiesRead_seg hPr
  have hEtag := checkTag_ok hEn
  have hmemH : gH.cur ∈ streamOf g := by
    have m0 : gH.cur ∈ streamOf gH := List.mem_cons_self _ _
    have m1 := memSeg s7 m0
    have m2 := memConsSeg s6 m1
    have m3 := memConsSeg s5 m2
    have m4 := memSeg s4 m3
    have m5 := memConsSeg s3 m4
    have m6 := memSeg s2 m5
    have m7 := memSeg s1 m6
    rw [e0]
    exact List.mem_cons_of_mem _ m7
  have hHend : gH.cur = ⟨tags.ENDEL, PyVal.none⟩ := by
    have hd := (hwf gH.cur hmemH).1
    rw [← recordData_eta gH.cur, hEtag, hd]
    rw [hEtag]
    decide
  have e7x : streamOf gH = ⟨tags.ENDEL, PyVal.none⟩ :: streamOf gI := by
    rw [← hHend, streamOf_cons gH, gnext_ok hgI]
  have hp : b = ⟨o1, o2, d3, so, mo, ao, c5, r5, ps, prs⟩ := by
    rw [← hb, hi7, hi6, hi5, hi4, hi3, hi2, hi1]
    rcases so with _ | d
    · obtain ⟨rfl, rfl⟩ := hso rfl
      rcases o1 <;> rcases o2 <;> simp [optApply, stransApply]
    · rcases o1 <;> rcases o2 <;> rcases mo <;> rcases ao <;>
        simp [optApply, stransApply]
  rw [hp, e0, ← s1, ← s2, ← s3, ← s4, ← s5, ← s6, ← s7, ← hg2, e7x]
  simp [arefRecs, List.append_assoc]

theorem textRead_recs {g g2 : GS} {b : GText}
    (hcur : g.cur = ⟨tags.TEXT, PyVal.none⟩)
    (hwf : GoodStream (streamOf g))
    (h : textRead g = .ok (b, g2)) :
    textRecs b ++ streamOf g2 = streamOf g := by
  unfold textRead at h
  obtain ⟨gA, hgA, h⟩ := exceptBind_ok.mp h
  obtain ⟨⟨i1, gB⟩, hEl, h⟩ := exceptBind_ok.mp h
  obtain ⟨⟨i2x, gC⟩, hPl, h⟩ := exceptBind_ok.mp h
  obtain ⟨⟨i3, gD⟩, hLa, h⟩ := exceptBind_ok.mp h
  obtain ⟨⟨i4, gE⟩, hTt, h⟩ := exceptBind_ok.mp h
  obtain ⟨⟨i5, gF⟩, hPs, h⟩ := exceptBind_ok.mp h
  obtain ⟨⟨i6, gG⟩, hPt, h⟩ := exceptBind_ok.mp h
  obtain ⟨⟨i7, gH⟩, hWd, h⟩ := exceptBind_ok.mp h
  obtain ⟨⟨i8, gI⟩, hSt, h⟩ := exceptBind_ok.mp h
  obtain ⟨⟨i9, gJ⟩, hXy, h⟩ := exceptBind_ok.mp h
  obtain ⟨⟨i10, gK⟩, hSg, h⟩ := exceptBind_ok.mp h
  obtain ⟨⟨i11, gL⟩, hPr, h⟩ := exceptBind_ok.mp h
  obtain ⟨u, hEn, h⟩ := exceptBind_ok.mp h
  obtain ⟨gM, hgM, h⟩ := exceptBind_ok.mp h
  simp only [Except.ok.injEq, Prod.mk.injEq] at h
  obtain ⟨hb, hg2⟩ := h
  have e0 : streamOf g = ⟨tags.TEXT, PyVal.none⟩ :: streamOf gA := by
    rw [streamOf_cons g, hcur, gnext_ok hgA]
  obtain ⟨o1, hi1, s1⟩ := optionalWholeRead_seg hEl
  obtain ⟨o2, hi2, s2⟩ := simpleOptionalRead_seg hPl
  obtain ⟨v3, hi3, s3⟩ := simpleRead_seg hLa
  obtain ⟨v4, hi4, s4⟩ := simpleRead_seg hTt
  obtain ⟨o5, hi5, s5⟩ := optionalWholeRead_seg hPs
  obtain ⟨o6, hi6, s6⟩ := simpleOptionalRead_seg hPt
  obtain ⟨o7, hi7, s7⟩ := simpleOptionalRead_seg hWd
  obtain ⟨so, mo, ao, hi8, hso, s8⟩ := stransRead_seg hSt
  obtain ⟨ps, hi9, s9⟩ := xyRead_seg hXy
  obtain ⟨d10, hi10, s10⟩ := stringRead_seg hSg
  obtain ⟨prs, hi11, s11⟩ := propertiesRead_seg hPr
  have hEtag := checkTag_ok hEn
  have hmemL : gL.cur ∈ streamOf g := by
    have m0 : gL.cur ∈ streamOf gL := List.mem_cons_self _ _
    have m1 := memSeg s11 m0
    have m2 := memConsSeg s10 m1
    have m3 := memConsSeg s9 m2
    have m4 := memSeg s8 m3
    have m5 := memSeg s7 m4
    have m6 := memSeg s6 m5
    have m7 := memSeg s5 m6
    have m8 := memConsSeg s4 m7
    have m9 := memConsSeg s3 m8
    have m10 := memSeg s2 m9
    have m11 := memSeg s1 m10
    rw [e0]
    exact List.mem_cons_of_mem _ m11
  have hLend : gL.cur = ⟨tags.ENDEL, PyVal.none⟩ := by
    have hd := (hwf gL.cur hmemL).1
    rw [← recordData_eta gL.cur, hEtag, hd]
    rw [hEtag]
    decide
  have e7x : streamOf gL = ⟨tags.ENDEL, PyVal.none⟩ :: streamOf gM := by
    rw [← hLend, streamOf_cons gL, gnext_ok hgM]
  have h1 : i1 = ⟨o1, none, 0, 0, none, none, none, none, none, none, [],
      .none, []⟩ := by
    rw [hi1]
    rcases o1 <;> rfl
  have h2 : i2x = ⟨o1, o2, 0, 0, none, none, none, none, none, none, [],
      .none, []⟩ := by
    rw [hi2, h1]
    rcases o2 <;> rfl
  have h3 : i3 = ⟨o1, o2, v3, 0, none, none, none, none, none, none, [],
      .none, []⟩ := by
    rw [hi3, h2]
  have h4 : i4 = ⟨o1, o2, v3, v4, none, none, none, none, none, none, [],
      .none, []⟩ := by
    rw [hi4, h3]
  have h5 : i5 = ⟨o1, o2, v3, v4, o5, none, none, none, none, none, [],
      .none, []⟩ := by
    rw [hi5, h4]
    rcases o5 <;> rfl
  have h6 : i6 = ⟨o1, o2, v3, v4, o5, o6, none, none, none, none, [],
      .none, []⟩ := by
    rw [hi6, h5]
    rcases o6 <;> rfl
  have h7 : i7 = ⟨o1, o2, v3, v4, o5, o6, o7, none, none, none, [],
      .none, []⟩ := by
    rw [hi7, h6]
    rcases o7 <;> rfl
  have h8 : i8 = ⟨o1, o2, v3, v4, o5, o6, o7, so, mo, ao, [], .none, []⟩ := by
    rw [hi8, h7]
    rcases so with _ | d
    · obtain ⟨rfl, rfl⟩ := hso rfl
      rfl
    · rcases mo <;> rcases ao <;> rfl
  have h9 : i9 = ⟨o1, o2, v3, v4, o5, o6, o7, so, mo, ao, ps, .none, []⟩ := by
    rw [hi9, h8]
  have h10 : i10 = ⟨o1, o2, v3, v4, o5, o6, o7, so, mo, ao, ps, d10, []⟩ := by
    rw [hi10, h9]
  have hp : b = ⟨o1, o2, v3, v4, o5, o6, o7, so, mo, ao, ps, d10, prs⟩ := by
    rw [← hb, hi11, h10]
  rw [hp, e0, ← s1, ← s2, ← s3, ← s4, ← s5, ← s6, ← s7, ← s8, ← s9, ← s10,
    ← s11, ← hg2, e7x]
  simp [textRecs, List.append_assoc]

theorem nodeRead_recs {g g2 : GS} {b : GNode}
    (hcur : g.cur = ⟨tags.NODE, PyVal.none⟩)
    (hwf : GoodStream (streamOf g))
    (h : nodeRead g = .ok (b, g2)) :
    nodeRecs b ++ streamOf g2 = streamOf g := by
  unfold nodeRead at h
  obtain ⟨gA, hgA, h⟩ := exceptBind_ok.mp h
  obtain ⟨⟨i1, gB⟩, hEl, h⟩ := exceptBind_ok.mp h
  obtain ⟨⟨i2x, gC⟩, hPl, h⟩ := exceptBind_ok.mp h
  obtain ⟨⟨i3, gD⟩, hLa, h⟩ := exceptBind_ok.mp h
  obtain ⟨⟨i4, gE⟩, hNt, h⟩ := exceptBind_ok.mp h
  obtain ⟨⟨i5, gF⟩, hXy, h⟩ := exceptBind_ok.mp h
  obtain ⟨u, hEn, h⟩ := exceptBind_ok.mp h
  obtain ⟨gG, hgG, h⟩ := exceptBind_ok.mp h
  simp only [Except.ok.injEq, Prod.mk.injEq] at h
  obtain ⟨hb, hg2⟩ := h
  have e0 : streamOf g = ⟨tags.NODE, PyVal.none⟩ :: streamOf gA := by
    rw [streamOf_cons g, hcur, gnext_ok hgA]
  obtain ⟨o1, hi1, s1⟩ := optionalWholeRead_seg hEl
  obtain ⟨o2, hi2, s2⟩ := simpleOptionalRead_seg hPl
  obtain ⟨v3, hi3, s3⟩ := simpleRead_seg hLa
  obtain ⟨v4, hi4, s4⟩ := simpleRead_seg hNt
  obtain ⟨ps, hi5, s5⟩ := xyRead_seg hXy
  have hEtag := checkTag_ok hEn
  have hmemF : gF.cur ∈ streamOf g := by
    have m0 : gF.cur ∈ streamOf gF := List.mem_cons_self _ _
    have m1 := memConsSeg s5 m0
    have m2 := memConsSeg s4 m1
    have m3 := memConsSeg s3 m2
    have m4 := memSeg s2 m3
    have m5 := memSeg s1 m4
    rw [e0]
    exact List.mem_cons_of_mem _ m5
  have hFend : gF.cur = ⟨tags.ENDEL, PyVal.none⟩ := by
    have hd := (hwf gF.cur hmemF).1
    rw [← recordData_eta gF.cur, hEtag, hd]
    rw [hEtag]
    decide
  have e7x : streamOf gF = ⟨tags.ENDEL, PyVal.none⟩ :: streamOf gG := by
    rw [← hFend, streamOf_cons gF, gnext_ok hgG]
  have hp : b = ⟨o1, o2, v3, v4, ps⟩ := by
    rw [← hb, hi5, hi4, hi3, hi2, hi1]
    rcases o1 <;> rcases o2 <;> rfl
  rw [hp, e0, ← s1, ← s2, ← s3, ← s4, ← s5, ← hg2, e7x]
  simp [nodeRecs, List.append_assoc]

theorem boxRead_recs {g g2 : GS} {b : GBox}
    (hcur : g.cur = ⟨tags.BOX, PyVal.none⟩)
    (hwf : GoodStream (streamOf g))
    (h : boxRead g = .ok (b, g2)) :
    boxRecs b ++ streamOf g2 = streamOf g := by
  unfold boxRead at h
  obtain ⟨gA, hgA, h⟩ := exceptBind_ok.mp h
  obtain ⟨⟨i1, gB⟩, hEl, h⟩ := exceptBind_ok.mp h
  obtain ⟨⟨i2x, gC⟩, hPl, h⟩ := exceptBind_ok.mp h
  obtain ⟨⟨i3, gD⟩, hLa, h⟩ := exceptBind_ok.mp h
  obtain ⟨⟨i4, gE⟩, hBt, h⟩ := exceptBind_ok.mp h
  obtain ⟨⟨i5, gF⟩, hXy, h⟩ := exceptBind_ok.mp h
  obtain ⟨⟨i6, gG⟩, hPr, h⟩ := exceptBind_ok.mp h
  obtain ⟨u, hEn, h⟩ := exceptBind_ok.mp h
  obtain ⟨gH, hgH, h⟩ := exceptBind_ok.mp h
  simp only [Except.ok.injEq, Prod.mk.injEq] at h
  obtain ⟨hb, hg2⟩ := h
  have e0 : streamOf g = ⟨tags.BOX, PyVal.none⟩ :: streamOf gA := by
    rw [streamOf_cons g, hcur, gnext_ok hgA]
  obtain ⟨o1, hi1, s1⟩ := optionalWholeRead_seg hEl
  obtain ⟨o2, hi2, s2⟩ := simpleOptionalRead_seg hPl
  obtain ⟨v3, hi3, s3⟩ := simpleRead_seg hLa
  obtain ⟨v4, hi4, s4⟩ := simpleRead_seg hBt
  obtain ⟨ps, hi5, s5⟩ := xyRead_seg hXy
  obtain ⟨prs, hi6, s6⟩ := propertiesRead_seg hPr
  have hEtag := checkTag_ok hEn
  have hmemG : gG.cur ∈ streamOf g := by
    have m0 : gG.cur ∈ streamOf gG := List.mem_cons_self _ _
    have m1 := memSeg s6 m0
    have m2 := memConsSeg s5 m1
    have m3 := memConsSeg s4 m2
    have m4 := memConsSeg s3 m3
    have m5 := memSeg s2 m4
    have m6 := memSeg s1 m5
    rw [e0]
    exact List.mem_cons_of_mem _ m6
  have hGend : gG.cur = ⟨tags.ENDEL, PyVal.none⟩ := by
    have hd := (hwf gG.cur hmemG).1
    rw [← recordData_eta gG.cur, hEtag, hd]
    rw [hEtag]
    decide
  have e7x : streamOf gG = ⟨tags.ENDEL, PyVal.none⟩ :: streamOf gH := by
    rw [← hGend, streamOf_cons gG, gnext_ok hgH]
  have hp : b = ⟨o1, o2, v3, v4, ps, prs⟩ := by
    rw [← hb, hi6, hi5, hi4, hi3, hi2, hi1]
    rcases o1 <;> rcases o2 <;> rfl
  rw [hp, e0, ← s1, ← s2, ← s3, ← s4, ← s5, ← s6, ← hg2, e7x]
  simp [boxRecs, List.append_assoc]

theorem exceptMap_ok {α β : Type} {x : Except Err α} {f : α → β} {b : β} :
    x.map f = .ok b ↔ ∃ a, x = .ok a ∧ f a = b := by
  cases x <;> simp [Except.map]

theorem tagToClass_boundary {t : Nat} (h : tagToClass t = some .boundary) :
    t = tags.BOUNDARY := by
  unfold tagToClass at h
  split_ifs at h with h1 h2 h3 h4 h5 h6 h7 <;> first | assumption | simp_all

theorem tagToClass_path {t : Nat} (h : tagToClass t = some .path) :
    t = tags.PATH := by
  unfold tagToClass at h
  split_ifs at h with h1 h2 h3 h4 h5 h6 h7 <;> first | assumption | simp_all

theorem tagToClass_sref {t : Nat} (h : tagToClass t = some .sref) :
    t = tags.SREF := by
  unfold tagToClass at h
  split_ifs at h with h1 h2 h3 h4 h5 h6 h7 <;> first | assumption | simp_all

theorem tagToClass_aref {t : Nat} (h : tagToClass t = some .aref) :
    t = tags.AREF := by
  unfold tagToClass at h
  split_ifs at h with h1 h2 h3 h4 h5 h6 h7 <;> first | assumption | simp_all

theorem tagToClass_text {t : Nat} (h : tagToClass t = some .text) :
    t = tags.TEXT := by
  unfold tagToClass at h
  split_ifs at h with h1 h2 h3 h4 h5 h6 h7 <;> first | assumption | simp_all

theorem tagToClass_node {t : Nat} (h : tagToClass t = some .node) :
    t = tags.NODE := by
  unfold tagToClass at h
  split_ifs at h with h1 h2 h3 h4 h5 h6 h7 <;> first | assumption | simp_all

theorem tagToClass_box {t : Nat} (h : tagToClass t = some .box) :
    t = tags.BOX := by
  unfold tagToClass at h
  split_ifs at h with h1 h2 h3 h4 h5 h6 h7 <;> first | assumption | simp_all

theorem elementLoad_recs {g g2 : GS} {e : GElement}
    (hwf : GoodStream (streamOf g))
    (h : elementLoad g = .ok (e, g2)) :
    elementRecs e ++ streamOf g2 = streamOf g := by
  have hmem : g.cur ∈ streamOf g := List.mem_cons_self _ _
  have hnod := (hwf g.cur hmem).1
  unfold elementLoad at h
  match htc : tagToClass g.cur.tag with
  | none => rw [htc] at h; simp at h
  | some .boundary =>
    rw [htc] at h
    obtain ⟨⟨b, gb⟩, hb, he⟩ := exceptMap_ok.mp h
    simp only [Prod.mk.injEq] at he
    have hcur : g.cur = ⟨tags.BOUNDARY, PyVal.none⟩ := by
      rw [← recordData_eta g.cur, tagToClass_boundary htc,
        hnod (by rw [tagToClass_boundary htc]; decide)]
    rw [← he.1, ← he.2]
    simp only [elementRecs]
    exact boundaryRead_recs hcur hwf hb
  | some .path =>
    rw [htc] at h
    obtain ⟨⟨b, gb⟩, hb, he⟩ := exceptMap_ok.mp h
    simp only [Prod.mk.injEq] at he
    have hcur : g.cur = ⟨tags.PATH, PyVal.none⟩ := by
      rw [← recordData_eta g.cur, tagToClass_path htc,
        hnod (by rw [tagToClass_path htc]; decide)]
    rw [← he.1, ← he.2]
    simp only [elementRecs]
    exact pathRead_recs hcur hwf hb
  | some .sref =>
    rw [htc] at h
    obtain ⟨⟨b, gb⟩, hb, he⟩ := exceptMap_ok.mp h
    simp only [Prod.mk.injEq] at he
    have hcur : g.cur = ⟨tags.SREF, PyVal.none⟩ := by
      rw [← recordData_eta g.cur, tagToClass_sref htc,
        hnod (by rw [tagToClass_sref htc]; decide)]
    rw [← he.1, ← he.2]
    simp only [elementRecs]
    exact srefRead_recs hcur hwf hb
  | some .aref =>
    rw [htc] at h
    obtain ⟨⟨b, gb⟩, hb, he⟩ := exceptMap_ok.mp h
    simp only [Prod.mk.injEq] at he
    have hcur : g.cur = ⟨tags.AREF, PyVal.none⟩ := by
      rw [← recordData_eta g.cur, tagToClass_aref htc,
        hnod (by rw [tagToClass_aref htc]; decide)]
    rw [← he.1, ← he.2]
    simp only [elementRecs]
    exact arefRead_recs hcur hwf hb
  | some .text =>
    rw [htc] at h
    obtain ⟨⟨b, gb⟩, hb, he⟩ := exceptMap_ok.mp h
    simp only [Prod.mk.injEq] at he
    have hcur : g.cur = ⟨tags.TEXT, PyVal.none⟩ := by
      rw [← recordData_eta g.cur, tagToClass_text htc,
        hnod (by rw [tagToClass_text htc]; decide)]
    rw [← he.1, ← he.2]
    simp only [elementRecs]
    exact textRead_recs hcur hwf hb
  | some .node =>
    rw [htc] at h
    obtain ⟨⟨b, gb⟩, hb, he⟩ := exceptMap_ok.mp h
    simp only [Prod.mk.injEq] at he
    have hcur : g.cur = ⟨tags.NODE, PyVal.none⟩ := by
      rw [← recordData_eta g.cur, tagToClass_node htc,
        hnod (by rw [tagToClass_node htc]; decide)]
    rw [← he.1, ← he.2]
    simp only [elementRecs]
    exact nodeRead_recs hcur hwf hb
  | some .box =>
    rw [htc] at h
    obtain ⟨⟨b, gb⟩, hb, he⟩ := exceptMap_ok.mp h
    simp only [Prod.mk.injEq] at he
    have hcur : g.cur = ⟨tags.BOX, PyVal.none⟩ := by
      rw [← recordData_eta g.cur, tagToClass_box htc,
        hnod (by rw [tagToClass_box htc]; decide)]
    rw [← he.1, ← he.2]
    simp only [elementRecs]
    exact boxRead_recs hcur hwf hb

theorem ignoreRecord_ne {g g2 : GS} {t : Nat} (h : ignoreRecord g t = .ok g2)
    (hne : g.cur.tag ≠ t) : g2 = g := by
  unfold ignoreRecord at h
  rw [if_pos hne] at h
  simp only [Except.ok.injEq] at h
  exact h.symm

theorem notIgnored_ne {tag t : Nat} (h : tag ∉ ignoredTags)
    (ht : t ∈ ignoredTags) : tag ≠ t := by
  intro he
  rw [he] at h
  exact h ht

theorem elementsLoop_recs : ∀ (fuel : Nat) (g : GS) (es : List GElement)
    (g2 : GS), elementsLoopFuel fuel g = .ok (es, g2) →
    GoodStream (streamOf g) →
    (es.flatMap elementRecs) ++ streamOf g2 = streamOf g ∧
      g2.cur.tag = tags.ENDSTR := by
  intro fuel
  induction fuel with
  | zero => intro g es g2 h; simp [elementsLoopFuel] at h
  | succ n ih =>
    intro g es g2 h hwf
    unfold elementsLoopFuel at h
    by_cases he : g.cur.tag = tags.ENDSTR
    · rw [if_pos he] at h
      simp only [Except.ok.injEq, Prod.mk.injEq] at h
      rw [← h.1, ← h.2]
      exact ⟨by simp, he⟩
    · rw [if_neg he] at h
      obtain ⟨⟨e, gB⟩, hload, h⟩ := exceptBind_ok.mp h
      obtain ⟨⟨es1, g3⟩, hloop, h⟩ := exceptBind_ok.mp h
      simp only [Except.ok.injEq, Prod.mk.injEq] at h
      have s1 := elementLoad_recs hwf hload
      have hwfB : GoodStream (streamOf gB) := by
        rw [← s1] at hwf
        exact goodStream_append hwf
      obtain ⟨s2, htag⟩ := ih gB es1 g3 hloop hwfB
      rw [← h.1, ← h.2]
      constructor
      · simp only [List.flatMap_cons, List.append_assoc]
        rw [s2, s1]
      · exact htag

theorem structureInit_recs {g g2 : GS} {s : GStructure}
    (hbg : g.cur.tag = tags.BGNSTR) (hwf : GoodStream (streamOf g))
    (h : structureInit g = .ok (s, g2)) :
    structureRecs s ++ g2.rest = streamOf g ∧ g2.cur.tag = tags.ENDSTR := by
  unfold structureInit at h
  obtain ⟨⟨mt, at2⟩, hT, h⟩ := exceptBind_ok.mp h
  obtain ⟨gA, hgA, h⟩ := exceptBind_ok.mp h
  obtain ⟨u1, hSn, h⟩ := exceptBind_ok.mp h
  obtain ⟨gB, hgB, h⟩ := exceptBind_ok.mp h
  obtain ⟨gC, hIg, h⟩ := exceptBind_ok.mp h
  obtain ⟨⟨es, gD⟩, hLoop, h⟩ := exceptBind_ok.mp h
  simp only [Except.ok.injEq, Prod.mk.injEq] at h
  obtain ⟨hs, hg2⟩ := h
  have e0 : streamOf g = ⟨tags.BGNSTR, .ints (timesList mt at2)⟩ :: streamOf gA := by
    rw [streamOf_cons g]
    rw [gnext_ok hgA]
    conv_lhs =>
      rw [← recordData_eta g.cur, hbg, recTimes_rt hT]
  have eA : streamOf gA = ⟨tags.STRNAME, gA.cur.data⟩ :: streamOf gB := by
    rw [streamOf_cons gA, gnext_ok hgB]
    have h0 := (recordData_eta gA.cur).symm
    rw [checkTag_ok hSn] at h0
    conv_lhs => rw [h0]
  have hmemB : gB.cur ∈ streamOf g := by
    have m0 : gB.cur ∈ streamOf gB := List.mem_cons_self _ _
    have m1 := memConsSeg eA.symm m0
    rw [e0]
    exact List.mem_cons_of_mem _ m1
  have hCB : gC = gB :=
    ignoreRecord_ne hIg (notIgnored_ne (hwf gB.cur hmemB).2 (by decide))
  have hwfC : GoodStream (streamOf gC) := by
    intro r hr
    rw [hCB] at hr
    have hrA : r ∈ streamOf gA := memConsSeg eA.symm hr
    have hrg : r ∈ streamOf g := by
      rw [e0]
      exact List.mem_cons_of_mem _ hrA
    exact hwf r hrg
  obtain ⟨sL, hend⟩ := elementsLoop_recs _ gC es gD hLoop hwfC
  have hmemD : gD.cur ∈ streamOf g := by
    have m0 : gD.cur ∈ streamOf gD := List.mem_cons_self _ _
    have m1 := memSeg sL m0
    rw [hCB] at m1
    have m2 := memConsSeg eA.symm m1
    rw [e0]
    exact List.mem_cons_of_mem _ m2
  have hDend : gD.cur = ⟨tags.ENDSTR, PyVal.none⟩ := by
    have hd := (hwf gD.cur hmemD).1
    rw [← recordData_eta gD.cur, hend, hd]
    rw [hend]
    decide
  constructor
  · rw [← hg2, ← hs]
    simp only [structureRecs]
    rw [e0]
    simp only [List.cons_append, List.cons.injEq, true_and]
    rw [eA]
    simp only [List.cons.injEq, true_and]
    rw [← hCB, ← sL]
    have : streamOf gD = ⟨tags.ENDSTR, PyVal.none⟩ :: gD.rest := by
      rw [← hDend, streamOf_cons gD]
    rw [this]
    simp [List.append_assoc]
  · rw [← hg2]
    exact hend

theorem structuresLoop_recs : ∀ (fuel : Nat) (g : GS) (ss : List GStructure)
    (g2 : GS), structuresLoopFuel fuel g = .ok (ss, g2) →
    GoodStream g.rest →
    (ss.flatMap structureRecs) ++ streamOf g2 = g.rest ∧
      g2.cur = ⟨tags.ENDLIB, PyVal.none⟩ := by
  intro fuel
  induction fuel with
  | zero => intro g ss g2 h; simp [structuresLoopFuel] at h
  | succ n ih =>
    intro g ss g2 h hwf
    unfold structuresLoopFuel at h
    obtain ⟨gA, hgA, h⟩ := exceptBind_ok.mp h
    have hrA : g.rest = streamOf gA := gnext_ok hgA
    have hwfA : GoodStream (streamOf gA) := by rw [← hrA]; exact hwf
    by_cases hbg : gA.cur.tag = tags.BGNSTR
    · rw [if_pos hbg] at h
      obtain ⟨⟨s, gB⟩, hsi, h⟩ := exceptBind_ok.mp h
      obtain ⟨⟨ss1, g3⟩, hloop, h⟩ := exceptBind_ok.mp h
      simp only [Except.ok.injEq, Prod.mk.injEq] at h
      obtain ⟨hss, hg2⟩ := h
      obtain ⟨sRec, hEnd⟩ := structureInit_recs hbg hwfA hsi
      have hwfB : GoodStream gB.rest := by
        rw [← sRec] at hwfA
        exact goodStream_append hwfA
      obtain ⟨sL, hcur⟩ := ih gB ss1 g3 hloop hwfB
      constructor
      · rw [← hss, ← hg2]
        simp only [List.flatMap_cons, List.append_assoc]
        rw [sL, sRec, hrA]
      · rw [← hg2]
        exact hcur
    · rw [if_neg hbg] at h
      by_cases hel : gA.cur.tag = tags.ENDLIB
      · rw [if_pos hel] at h
        simp only [Except.ok.injEq, Prod.mk.injEq] at h
        obtain ⟨hss, hg2⟩ := h
        constructor
        · rw [← hss, ← hg2]
          simp [hrA]
        · rw [← hg2]
          have hmem : gA.cur ∈ streamOf gA := List.mem_cons_self _ _
          rw [← hrA] at hmem
          have hd := (hwf gA.cur hmem).1
          rw [← recordData_eta gA.cur, hel, hd]
          rw [hel]
          decide
      · rw [if_neg hel] at h
        simp at h

theorem formatSkip_ne {g g2 : GS} (h : formatSkip g = .ok g2)
    (hne : g.cur.tag ≠ tags.FORMAT) : g2 = g := by
  unfold formatSkip at h
  rw [if_neg hne] at h
  simp only [Except.ok.injEq] at h
  exact h.symm

theorem libraryInit_recs {rs : List RecordData} {L : GLibrary}
    (h : libraryInit rs = .ok (L, [])) (hgood : GoodStream rs) :
    libraryRecs L = rs := by
  unfold libraryInit at h
  cases rs with
  | nil => simp at h
  | cons r rest =>
  simp only [] at h
  obtain ⟨u1, hHt, h⟩ := exceptBind_ok.mp h
  obtain ⟨u2, hHs, h⟩ := exceptBind_ok.mp h
  obtain ⟨v, hHv, h⟩ := exceptBind_ok.mp h
  obtain ⟨gA, hgA, h⟩ := exceptBind_ok.mp h
  obtain ⟨u3, hBt, h⟩ := exceptBind_ok.mp h
  obtain ⟨⟨mt, at2⟩, hT, h⟩ := exceptBind_ok.mp h
  obtain ⟨gB, hgB, h⟩ := exceptBind_ok.mp h
  obtain ⟨gB1, hI1, h⟩ := exceptBind_ok.mp h
  obtain ⟨gB2, hI2, h⟩ := exceptBind_ok.mp h
  obtain ⟨gB3, hI3, h⟩ := exceptBind_ok.mp h
  obtain ⟨u4, hLt, h⟩ := exceptBind_ok.mp h
  obtain ⟨gC, hgC, h⟩ := exceptBind_ok.mp h
  obtain ⟨gC1, hI4, h⟩ := exceptBind_ok.mp h
  obtain ⟨gC2, hI5, h⟩ := exceptBind_ok.mp h
  obtain ⟨gC3, hI6, h⟩ := exceptBind_ok.mp h
  obtain ⟨gC4, hI7, h⟩ := exceptBind_ok.mp h
  obtain ⟨gC5, hFs, h⟩ := exceptBind_ok.mp h
  obtain ⟨u5, hUt, h⟩ := exceptBind_ok.mp h
  obtain ⟨u6, hUs, h⟩ := exceptBind_ok.mp h
  obtain ⟨⟨lu, pu⟩, hUv, h⟩ := exceptBind_ok.mp h
  obtain ⟨⟨structs, gD⟩, hLoop, h⟩ := exceptBind_ok.mp h
  simp only [Except.ok.injEq, Prod.mk.injEq] at h
  obtain ⟨hL, hrem⟩ := h
  set g : GS := ⟨r, rest⟩ with hg
  -- HEADER record
  obtain ⟨tH, htH⟩ := dataFirstInt_ok hHv
  have hlenH := checkSize_ok hHs
  rw [htH] at hlenH
  simp only [dataLen, Except.ok.injEq, List.length_cons] at hlenH
  have htHnil : tH = [] := by
    cases tH with
    | nil => rfl
    | cons x y => simp at hlenH
  subst htHnil
  have e0 : streamOf g = ⟨tags.HEADER, .ints [v]⟩ :: streamOf gA := by
    rw [streamOf_cons g, gnext_ok hgA]
    conv_lhs => rw [← recordData_eta g.cur, checkTag_ok hHt, htH]
  -- BGNLIB record
  have eA : streamOf gA = ⟨tags.BGNLIB, .ints (timesList mt at2)⟩ :: streamOf gB := by
    rw [streamOf_cons gA, gnext_ok hgB]
    conv_lhs => rw [← recordData_eta gA.cur, checkTag_ok hBt, recTimes_rt hT]
  have hstream : streamOf g = r :: rest := rfl
  have hgoodS : GoodStream (streamOf g) := by rw [hstream]; exact hgood
  -- the three ignored header records do not fire
  have hmemB : gB.cur ∈ streamOf g := by
    have m0 : gB.cur ∈ streamOf gB := List.mem_cons_self _ _
    have m1 := memConsSeg eA.symm m0
    rw [e0]
    exact List.mem_cons_of_mem _ m1
  have hB1 : gB1 = gB :=
    ignoreRecord_ne hI1 (notIgnored_ne (hgoodS gB.cur hmemB).2 (by decide))
  rw [hB1] at hI2
  have hB2 : gB2 = gB :=
    ignoreRecord_ne hI2 (notIgnored_ne (hgoodS gB.cur hmemB).2 (by decide))
  rw [hB2] at hI3
  have hB3 : gB3 = gB :=
    ignoreRecord_ne hI3 (notIgnored_ne (hgoodS gB.cur hmemB).2 (by decide))
  rw [hB3] at hLt hgC
  -- LIBNAME record
  have eB : streamOf gB = ⟨tags.LIBNAME, gB.cur.data⟩ :: streamOf gC := by
    rw [streamOf_cons gB, gnext_ok hgC]
    have h0 := (recordData_eta gB.cur).symm
    rw [checkTag_ok hLt] at h0
    conv_lhs => rw [h0]
  -- the four ignored records and FORMAT do not fire
  have hmemC : gC.cur ∈ streamOf g := by
    have m0 : gC.cur ∈ streamOf gC := List.mem_cons_self _ _
    have m1 := memConsSeg eB.symm m0
    have m2 := memConsSeg eA.symm m1
    rw [e0]
    exact List.mem_cons_of_mem _ m2
  have hC1 : gC1 = gC :=
    ignoreRecord_ne hI4 (notIgnored_ne (hgoodS gC.cur hmemC).2 (by decide))
  rw [hC1] at hI5
  have hC2 : gC2 = gC :=
    ignoreRecord_ne hI5 (notIgnored_ne (hgoodS gC.cur hmemC).2 (by decide))
  rw [hC2] at hI6
  have hC3 : gC3 = gC :=
    ignoreRecord_ne hI6 (notIgnored_ne (hgoodS gC.cur hmemC).2 (by decide))
  rw [hC3] at hI7
  have hC4 : gC4 = gC :=
    ignoreRecord_ne hI7 (notIgnored_ne (hgoodS gC.cur hmemC).2 (by decide))
  rw [hC4] at hFs
  have hC5 : gC5 = gC :=
    formatSkip_ne hFs (notIgnored_ne (hgoodS gC.cur hmemC).2 (by decide))
  rw [hC5] at hUt hUs hUv hLoop
  -- UNITS record
  have eC : streamOf gC = ⟨tags.UNITS, .reals [lu, pu]⟩ :: gC.rest := by
    rw [streamOf_cons gC]
    conv_lhs => rw [← recordData_eta gC.cur, checkTag_ok hUt, dataTwoReals_ok hUv]
  have hwfCR : GoodStream gC.rest := by
    intro x hx
    have h1 : x ∈ streamOf gC := List.mem_cons_of_mem _ hx
    have h2 := memConsSeg eB.symm h1
    have h3 := memConsSeg eA.symm h2
    have h4 : x ∈ streamOf g := by
      rw [e0]
      exact List.mem_cons_of_mem _ h3
    exact hgoodS x h4
  obtain ⟨sL, hDcur⟩ := structuresLoop_recs _ gC structs gD hLoop hwfCR
  have hDstream : streamOf gD = [⟨tags.ENDLIB, PyVal.none⟩] := by
    rw [streamOf_cons gD, hDcur, hrem]
  rw [← hL]
  show libraryRecs _ = streamOf g
  rw [e0, eA, eB, eC, ← sL, hDstream]
  simp [libraryRecs, hB3]

theorem parseByType_nodata {d : List Nat} {v : PyVal}
    (h : parseByType 0 d = .ok v) : v = PyVal.none := by
  simp only [parseByType, parseNodata, if_pos] at h
  split_ifs at h
  simp at h
  exact h.symm

theorem recordDataRead_nodata {s : List Nat} {rec : RecordData} {rest : List Nat}
    (h : recordDataRead s = .ok (rec, rest)) (h0 : typeOfTag rec.tag = 0) :
    rec.data = PyVal.none := by
  simp only [recordDataRead, bind, Except.bind] at h
  obtain ⟨⟨⟨tag, data⟩, rest2⟩, h1, h⟩ := exceptBind_ok.mp h
  obtain ⟨v, h2, h3⟩ := exceptBind_ok.mp h
  have he : rec = ⟨tag, v⟩ ∧ rest = rest2 := by
    have := Except.ok.inj h3
    exact ⟨congrArg Prod.fst this |>.symm, congrArg Prod.snd this |>.symm⟩
  rw [he.1] at h0 ⊢
  rw [h0] at h2
  exact parseByType_nodata h2

theorem allRecordsFuel_nodata : ∀ (fuel : Nat) (s : List Nat)
    (rs : List RecordData) (rem : List Nat),
    allRecordsFuel fuel s = .ok (rs, rem) →
    ∀ r ∈ rs, typeOfTag r.tag = 0 → r.data = PyVal.none
  | 0, _, _, _, h => by cases h
  | fuel + 1, s, rs, rem, h => by
    simp only [allRecordsFuel, bind, Except.bind] at h
    obtain ⟨⟨rec, rest⟩, h1, h⟩ := exceptBind_ok.mp h
    by_cases htag : rec.tag = tags.ENDLIB
    · rw [if_pos htag] at h
      have he := Except.ok.inj h
      intro r hr h0
      have hrs : rs = [rec] := (congrArg Prod.fst he).symm
      rw [hrs, List.mem_singleton] at hr
      rw [hr]
      exact recordDataRead_nodata h1 (hr ▸ h0)
    · rw [if_neg htag] at h
      obtain ⟨⟨recs, rem2⟩, h2, h3⟩ := exceptBind_ok.mp h
      have he := Except.ok.inj h3
      have hrs : rs = rec :: recs := (congrArg Prod.fst he).symm
      intro r hr h0
      rw [hrs, List.mem_cons] at hr
      rcases hr with hr | hr
      · rw [hr]
        exact recordDataRead_nodata h1 (hr ▸ h0)
      · exact allRecordsFuel_nodata fuel rest recs rem2 h2 r hr h0

/-- C1: the byte-level round trip of `Library` (amended).  For every byte
stream F that the parser accepts — `all_records` frames it into a record run
rs and `Library.__init__` consumes rs completely — such that F is the
canonical framing of rs (`save`-ing rs reproduces F byte-for-byte, which
pins down the REAL8 payloads to their normalised encodings) and rs contains
none of the parse-and-discard optional records (LIBDIRSIZE, SRFNAME,
LIBSECUR, REFLIBS, FONTS, ATTRTABLE, GENERATIONS, FORMAT, MASK, ENDMASKS,
STRCLASS), decoding yields a library whose `save` reproduces F exactly:
encode(decode(F)) = F. -/
theorem C1_round_trip (F : List Nat) (rs : List RecordData) (rem : List Nat)
    (L : GLibrary)
    (h1 : allRecords F = .ok (rs, rem))
    (h2 : libraryInit rs = .ok (L, []))
    (h3 : framesBytes rs = .ok F)
    (h4 : ∀ r ∈ rs, r.tag ∉ ignoredTags) :
    byteDecode F = .ok L ∧ librarySaveBytes L = .ok F := by
  have hgood : GoodStream rs := fun r hr =>
    ⟨fun h0 => allRecordsFuel_nodata (F.length + 1) F rs rem h1 r hr h0, h4 r hr⟩
  have hrecs : libraryRecs L = rs := libraryInit_recs h2 hgood
  constructor
  · simp [byteDecode, h1, h2, bind, Except.bind]
  · rw [librarySaveBytes, hrecs]
    exact h3

/-- Witness for C1 at the concrete file `emptyLibFile`: all four
hypotheses hold there, and the round trip reproduces the file. -/
theorem C1_round_trip_witness :
    allRecords emptyLibFile = .ok (emptyLibRecs, []) ∧
    libraryInit emptyLibRecs = .ok (emptyLib, []) ∧
    framesBytes emptyLibRecs = .ok emptyLibFile ∧
    (∀ r ∈ emptyLibRecs, r.tag ∉ ignoredTags) ∧
    byteDecode emptyLibFile = .ok emptyLib ∧
    librarySaveBytes emptyLib = .ok emptyLibFile :=
  ⟨by decide, by decide, by decide, by decide,
   C1_round_trip emptyLibFile emptyLibRecs [] emptyLib
     (by decide) (by decide) (by decide) (by decide)⟩

/-- Counterexample to C1 as stated: `libdirsizeFile` is a valid GDSII file
(the parser accepts it), but re-encoding the parsed library yields
`emptyLibFile`, which differs from it — the LIBDIRSIZE record is parsed,
discarded, and never re-emitted. -/
theorem C1_counterexample :
    byteDecode libdirsizeFile = .ok emptyLib ∧
    librarySaveBytes emptyLib = .ok emptyLibFile ∧
    emptyLibFile ≠ libdirsizeFile :=
  ⟨by decide, by decide, by decide⟩

end Gdsii
